import Mathlib

/-!
# ShellGLSLQuad: a verification development of `src/shell-glsl-quad.c`

The C file is a thin adapter between a Clutter actor and a Cogl pipeline.
The embedding is a state-passing model:

* Cogl objects live in a heap of reference-counted cells addressed by
  natural numbers; a `CoglPipeline *` is an `Option Nat` (`none` is `NULL`).
* Cogl itself is an external library.  A pipeline is modelled by the record
  of what the calls made by this file set on it; `cogl_pipeline_copy`
  allocates a fresh cell holding the same record.
* Class structures and instances live in two tables indexed by class id and
  object id.
* A log records what is observable from outside the data structures:
  `g_return_if_fail` diagnostics, invocations of the `build_pipeline`
  virtual function, and rectangle draw calls.
* C undefined behaviour and broken pointers are explicit `Fault`s.
-/

namespace GLSLQuad

/-! ## Data model -/

/-- A C `float`.  The file only forwards floats, so they are carried as
their bit patterns. -/
abbrev gfloat := Nat

/-- Ways in which a call can leave defined behaviour. -/
inductive Fault where
  | null_pointer
  | dangling_pointer
  | bad_object
  | division_by_zero
  | signed_overflow
  | buffer_overrun
  deriving DecidableEq, Repr

/-- The two enumerators of `ShellSnippetHook` that the file compares
against.  The header `shell-glsl-quad.h` declaring them is not part of the
source tree, so their numeric values are parameters of the model. -/
structure ShellSnippetHookValues where
  SHELL_SNIPPET_HOOK_VERTEX : Int
  SHELL_SNIPPET_HOOK_FRAGMENT : Int
  deriving DecidableEq, Repr

/-- A `CoglSnippet`: hook point, global declarations, code appended after the
default code of the hook (`post`), and code replacing it (`replace`). -/
structure CoglSnippet where
  hook : Int
  declarations : Option String
  post : Option String
  replace : Option String
  deriving DecidableEq, Repr

/-- One uniform upload: location, components per vector, number of vectors,
and the floats read from the caller's buffer. -/
structure CoglUniformValue where
  location : Int
  n_components : Int
  count : Int
  value : List gfloat
  deriving DecidableEq, Repr

/-- The state of a `CoglPipeline` as far as this file sets it. -/
structure CoglPipeline where
  blend : Option String
  color : Nat × Nat × Nat × Nat
  snippets : List CoglSnippet
  layer_snippets : List (Int × CoglSnippet)
  null_texture_layers : List Int
  uniforms : List CoglUniformValue
  deriving DecidableEq, Repr

/-- A heap cell: a reference count and the pipeline it holds. -/
structure CoglObject where
  ref_count : Nat
  pipeline : CoglPipeline
  deriving DecidableEq, Repr

/-- The `ClutterActorBox` of an allocation. -/
structure ClutterActorBox where
  x1 : gfloat
  y1 : gfloat
  x2 : gfloat
  y2 : gfloat
  deriving DecidableEq, Repr

/-- The `struct _ShellGLSLQuadPrivate`. -/
structure ShellGLSLQuadPrivate where
  pipeline : Option Nat
  deriving DecidableEq, Repr

/-- An instance: its class, the two attributes owned by the host framework
that `paint` reads, and the private data. -/
structure ShellGLSLQuad where
  klass : Nat
  paint_opacity : Nat
  allocation : ClutterActorBox
  priv : ShellGLSLQuadPrivate
  deriving DecidableEq, Repr

/-- The arguments of one `shell_glsl_quad_add_glsl_snippet` call. -/
structure SnippetCall where
  hook : Int
  declarations : Option String
  code : Option String
  is_replace : Bool
  deriving DecidableEq, Repr

/-- The class structure.  The body of a `build_pipeline` implementation is
subtype code; its only valid actions are `shell_glsl_quad_add_glsl_snippet`
calls on the instance it is handed, so an implementation is represented by
the list of calls it makes. -/
structure ShellGLSLQuadClass where
  base_pipeline : Option Nat
  build_pipeline : Option (List SnippetCall)
  deriving DecidableEq, Repr

/-- What is observable besides the data structures. -/
inductive Event where
  | critical (assertion : String)
  | build_pipeline (klass : Nat) (self : Nat)
  | draw_rectangle (pipeline : Nat) (state : CoglPipeline) (x1 y1 x2 y2 : gfloat)
  deriving DecidableEq, Repr

/-- The whole state. -/
structure World where
  heap : List CoglObject
  classes : List ShellGLSLQuadClass
  instances : List ShellGLSLQuad
  log : List Event
  deriving DecidableEq, Repr

/-- The state before any class is registered. -/
def World.init : World := ⟨[], [], [], []⟩

/-! ## Cogl, as far as the file uses it -/

/-- Effect of `cogl_pipeline_new`: no blend string set, opaque white, nothing attached. -/
def cogl_pipeline_new : CoglPipeline :=
  ⟨none, (255, 255, 255, 255), [], [], [], []⟩

/-- Effect of `cogl_pipeline_set_blend`. -/
def cogl_pipeline_set_blend (p : CoglPipeline) (blend : String) : CoglPipeline :=
  { p with blend := some blend }

/-- Effect of `cogl_pipeline_set_color4ub`. -/
def cogl_pipeline_set_color4ub (p : CoglPipeline) (r g b a : Nat) : CoglPipeline :=
  { p with color := (r, g, b, a) }

/-- Effect of `cogl_snippet_new (hook, declarations, post)`. -/
def cogl_snippet_new (hook : Int) (declarations post : Option String) : CoglSnippet :=
  ⟨hook, declarations, post, none⟩

/-- Effect of `cogl_snippet_set_replace`. -/
def cogl_snippet_set_replace (s : CoglSnippet) (replace : Option String) : CoglSnippet :=
  { s with replace := replace }

/-- Effect of `cogl_pipeline_add_snippet`. -/
def cogl_pipeline_add_snippet (p : CoglPipeline) (s : CoglSnippet) : CoglPipeline :=
  { p with snippets := p.snippets ++ [s] }

/-- Effect of `cogl_pipeline_add_layer_snippet`. -/
def cogl_pipeline_add_layer_snippet (p : CoglPipeline) (layer : Int) (s : CoglSnippet) :
    CoglPipeline :=
  { p with layer_snippets := p.layer_snippets ++ [(layer, s)] }

/-- Effect of `cogl_pipeline_set_layer_null_texture`. -/
def cogl_pipeline_set_layer_null_texture (p : CoglPipeline) (layer : Int) : CoglPipeline :=
  { p with null_texture_layers := p.null_texture_layers ++ [layer] }

/-- The floats `cogl_pipeline_set_uniform_float` reads from `value`:
`count` vectors of `n_components` floats.  Reading beyond the end of the
buffer is a fault. -/
def read_floats (n_components count : Int) (value : List gfloat) :
    Except Fault (List gfloat) :=
  if (count * n_components).toNat ≤ value.length then
    .ok (value.take (count * n_components).toNat)
  else
    .error .buffer_overrun

/-- Effect of `cogl_pipeline_set_uniform_float`. -/
def cogl_pipeline_set_uniform_float (p : CoglPipeline) (uniform n_components count : Int)
    (value : List gfloat) : Except Fault CoglPipeline :=
  match read_floats n_components count value with
  | .error f => .error f
  | .ok floats => .ok { p with uniforms := p.uniforms ++ [⟨uniform, n_components, count, floats⟩] }

/-- Dereference a non-`NULL` pipeline pointer: the cell must exist and be alive. -/
def deref (w : World) (a : Nat) : Except Fault CoglPipeline :=
  match w.heap[a]? with
  | none => .error .dangling_pointer
  | some o => if o.ref_count = 0 then .error .dangling_pointer else .ok o.pipeline

/-- Overwrite the pipeline held by a cell, keeping its reference count. -/
def store (w : World) (a : Nat) (p : CoglPipeline) : World :=
  match w.heap[a]? with
  | none => w
  | some o => { w with heap := w.heap.set a { o with pipeline := p } }

/-- Allocate a cell with reference count 1; its address is the old heap size. -/
def alloc (w : World) (p : CoglPipeline) : World :=
  { w with heap := w.heap ++ [⟨1, p⟩] }

/-- Effect of `cogl_object_unref` on a pipeline cell. -/
def cogl_object_unref (w : World) (a : Nat) : Except Fault World :=
  match w.heap[a]? with
  | none => .error .dangling_pointer
  | some o =>
    if o.ref_count = 0 then .error .dangling_pointer
    else .ok { w with heap := w.heap.set a { o with ref_count := o.ref_count - 1 } }

/-- Append an event to the log. -/
def emit (w : World) (e : Event) : World :=
  { w with log := w.log ++ [e] }

/-- The least C `int`. -/
def INT_MIN : Int := -2147483648

/-- C `int` division `a / b`: truncating, undefined for a zero divisor and
for the one quotient that overflows. -/
def c_int_div (a b : Int) : Except Fault Int :=
  if b = 0 then .error .division_by_zero
  else if a = INT_MIN ∧ b = -1 then .error .signed_overflow
  else .ok (Int.tdiv a b)

/-! ## The functions of `shell-glsl-quad.c` -/

/-- Counterpart of `SHELL_GLSL_QUAD (object)` together with
`shell_glsl_quad_get_instance_private`: the instance record. -/
def get_instance (w : World) (quad : Nat) : Except Fault ShellGLSLQuad :=
  match w.instances[quad]? with
  | none => .error .bad_object
  | some self => .ok self

/-- Counterpart of `SHELL_GLSL_QUAD_GET_CLASS (quad)`: the structure of the
most-derived class of the instance. -/
def get_class (w : World) (quad : Nat) : Except Fault ShellGLSLQuadClass :=
  match w.instances[quad]? with
  | none => .error .bad_object
  | some self =>
    match w.classes[self.klass]? with
    | none => .error .bad_object
    | some klass => .ok klass

/-- Model of `shell_glsl_quad_paint`. -/
def shell_glsl_quad_paint (w : World) (actor : Nat) : Except Fault World :=
  match get_instance w actor with
  | .error f => .error f
  | .ok self =>
    let paint_opacity := self.paint_opacity % 256
    let box := self.allocation
    match self.priv.pipeline with
    | none => .error .null_pointer
    | some a =>
      match deref w a with
      | .error f => .error f
      | .ok p =>
        let p1 := cogl_pipeline_set_color4ub p paint_opacity paint_opacity paint_opacity
          paint_opacity
        .ok (emit (store w a p1) (.draw_rectangle a p1 box.x1 box.y1 box.x2 box.y2))

/-- Lines 85-93 of the source: the snippet built from the arguments. -/
def make_snippet (hook : Int) (declarations code : Option String) (is_replace : Bool) :
    CoglSnippet :=
  if is_replace then
    cogl_snippet_set_replace (cogl_snippet_new hook declarations none) code
  else
    cogl_snippet_new hook declarations code

/-- Lines 95-99 of the source: where the snippet is attached. -/
def attach_snippet (H : ShellSnippetHookValues) (p : CoglPipeline) (hook : Int)
    (snippet : CoglSnippet) : CoglPipeline :=
  if hook = H.SHELL_SNIPPET_HOOK_VERTEX ∨ hook = H.SHELL_SNIPPET_HOOK_FRAGMENT then
    cogl_pipeline_add_snippet p snippet
  else
    cogl_pipeline_add_layer_snippet p 0 snippet

/-- Model of `shell_glsl_quad_add_glsl_snippet`.  A failing `g_return_if_fail`
logs a critical diagnostic and returns (GLib built with its checks, the
default). -/
def shell_glsl_quad_add_glsl_snippet (H : ShellSnippetHookValues) (w : World) (quad : Nat)
    (hook : Int) (declarations code : Option String) (is_replace : Bool) :
    Except Fault World :=
  match get_class w quad with
  | .error f => .error f
  | .ok klass =>
    match klass.base_pipeline with
    | none => .ok (emit w (.critical "klass->base_pipeline != NULL"))
    | some bp =>
      let snippet := make_snippet hook declarations code is_replace
      match deref w bp with
      | .error f => .error f
      | .ok p => .ok (store w bp (attach_snippet H p hook snippet))

/-- Model of `shell_glsl_quad_dispose`. -/
def shell_glsl_quad_dispose (w : World) (gobject : Nat) : Except Fault World :=
  match get_instance w gobject with
  | .error f => .error f
  | .ok self =>
    match self.priv.pipeline with
    | none => .ok w
    | some a =>
      match cogl_object_unref w a with
      | .error f => .error f
      | .ok w1 =>
        .ok { w1 with instances := w1.instances.set gobject { self with priv := ⟨none⟩ } }

/-- Run the body of a `build_pipeline` implementation on `self`. -/
def run_build_pipeline (H : ShellSnippetHookValues) (self : Nat) :
    List SnippetCall → World → Except Fault World
  | [], w => .ok w
  | c :: cs, w =>
    match shell_glsl_quad_add_glsl_snippet H w self c.hook c.declarations c.code
        c.is_replace with
    | .error f => .error f
    | .ok w1 => run_build_pipeline H self cs w1

/-- The blend string installed in every base pipeline. -/
def blend_string : String :=
  "RGBA = ADD (SRC_COLOR * (SRC_COLOR[A]), DST_COLOR * (1-SRC_COLOR[A]))"

/-- Lines 141-148 of the source: build the class base pipeline if it is
still `NULL`. -/
def build_base_pipeline (H : ShellSnippetHookValues) (w : World) (object : Nat) :
    Except Fault World :=
  match get_instance w object with
  | .error f => .error f
  | .ok self =>
    match get_class w object with
    | .error f => .error f
    | .ok klass =>
      match klass.base_pipeline with
      | some _ => .ok w
      | none =>
        let bp := w.heap.length
        let w1 := alloc w (cogl_pipeline_set_blend cogl_pipeline_new blend_string)
        let w2 := { w1 with
          classes := w1.classes.set self.klass { klass with base_pipeline := some bp } }
        match klass.build_pipeline with
        | none => .ok w2
        | some body =>
          run_build_pipeline H object body (emit w2 (.build_pipeline self.klass object))

/-- Model of `shell_glsl_quad_constructed`. -/
def shell_glsl_quad_constructed (H : ShellSnippetHookValues) (w : World) (object : Nat) :
    Except Fault World :=
  match build_base_pipeline H w object with
  | .error f => .error f
  | .ok w1 =>
    match get_instance w1 object with
    | .error f => .error f
    | .ok self =>
      match get_class w1 object with
      | .error f => .error f
      | .ok klass =>
        match klass.base_pipeline with
        | none => .error .null_pointer
        | some bp =>
          match deref w1 bp with
          | .error f => .error f
          | .ok base =>
            let a := w1.heap.length
            let w2 := alloc w1 (cogl_pipeline_set_layer_null_texture base 0)
            .ok { w2 with
              instances := w2.instances.set object { self with priv := ⟨some a⟩ } }

/-- Model of `shell_glsl_quad_get_uniform_location`.  The location Cogl
assigns to a name is given by `lookup`; the call changes nothing this file
can see. -/
def shell_glsl_quad_get_uniform_location (lookup : CoglPipeline → String → Int) (w : World)
    (quad : Nat) (name : String) : Except Fault (World × Int) :=
  match get_instance w quad with
  | .error f => .error f
  | .ok self =>
    match self.priv.pipeline with
    | none => .error .null_pointer
    | some a =>
      match deref w a with
      | .error f => .error f
      | .ok p => .ok (w, lookup p name)

/-- Model of `shell_glsl_quad_set_uniform_float`. -/
def shell_glsl_quad_set_uniform_float (w : World) (quad : Nat)
    (uniform n_components total_count : Int) (value : List gfloat) : Except Fault World :=
  match get_instance w quad with
  | .error f => .error f
  | .ok self =>
    match c_int_div total_count n_components with
    | .error f => .error f
    | .ok count =>
      match self.priv.pipeline with
      | none => .error .null_pointer
      | some a =>
        match deref w a with
        | .error f => .error f
        | .ok p =>
          match cogl_pipeline_set_uniform_float p uniform n_components count value with
          | .error f => .error f
          | .ok p1 => .ok (store w a p1)

/-! ## The host framework -/

/-- Class initialisation of a subtype: GObject copies the class structure of
the parent (the root type has no parent with this field, which starts
zeroed), then the subtype installs its `build_pipeline`. -/
def class_init (w : World) (parent : Option Nat)
    (build_pipeline : Option (List SnippetCall)) : Except Fault World :=
  match parent with
  | none => .ok { w with classes := w.classes ++ [⟨none, build_pipeline⟩] }
  | some c =>
    match w.classes[c]? with
    | none => .error .bad_object
    | some k => .ok { w with classes := w.classes ++ [⟨k.base_pipeline, build_pipeline⟩] }

/-- Instance creation: allocate the zeroed instance (`shell_glsl_quad_init`
is empty), then run `constructed`.  The new object id is the old table size. -/
def g_object_new (H : ShellSnippetHookValues) (w : World) (klass : Nat) : Except Fault World :=
  if klass < w.classes.length then
    shell_glsl_quad_constructed H
      { w with instances := w.instances ++ [⟨klass, 255, ⟨0, 0, 0, 0⟩, ⟨none⟩⟩] }
      w.instances.length
  else
    .error .bad_object

/-- The host framework changes the paint opacity and the allocation of an actor. -/
def host_update (w : World) (actor : Nat) (opacity : Nat) (box : ClutterActorBox) :
    Except Fault World :=
  match get_instance w actor with
  | .error f => .error f
  | .ok self =>
    .ok { w with
      instances :=
        w.instances.set actor { self with paint_opacity := opacity, allocation := box } }

/-- Construct `n` instances of one class, one after the other. -/
def construct_many (H : ShellSnippetHookValues) (klass : Nat) :
    Nat → World → Except Fault World
  | 0, w => .ok w
  | n + 1, w =>
    match g_object_new H w klass with
    | .error f => .error f
    | .ok w1 => construct_many H klass n w1

/-- The calls the host framework and subtype code can make. -/
inductive Op where
  | class_init (parent : Option Nat) (build_pipeline : Option (List SnippetCall))
  | g_object_new (klass : Nat)
  | host_update (actor : Nat) (opacity : Nat) (box : ClutterActorBox)
  | paint (actor : Nat)
  | add_glsl_snippet (quad : Nat) (call : SnippetCall)
  | set_uniform_float (quad : Nat) (uniform n_components total_count : Int)
      (value : List gfloat)
  | dispose (gobject : Nat)
  deriving DecidableEq, Repr

/-- One call. -/
def step (H : ShellSnippetHookValues) (w : World) : Op → Except Fault World
  | .class_init parent build_pipeline => class_init w parent build_pipeline
  | .g_object_new klass => g_object_new H w klass
  | .host_update actor opacity box => host_update w actor opacity box
  | .paint actor => shell_glsl_quad_paint w actor
  | .add_glsl_snippet quad c =>
    shell_glsl_quad_add_glsl_snippet H w quad c.hook c.declarations c.code c.is_replace
  | .set_uniform_float quad uniform n_components total_count value =>
    shell_glsl_quad_set_uniform_float w quad uniform n_components total_count value
  | .dispose gobject => shell_glsl_quad_dispose w gobject

/-- A sequence of calls, stopping at the first fault. -/
def run (H : ShellSnippetHookValues) : List Op → World → Except Fault World
  | [], w => .ok w
  | op :: ops, w =>
    match step H w op with
    | .error f => .error f
    | .ok w1 => run H ops w1

/-- The states a program can reach from the initial one. -/
def Reachable (H : ShellSnippetHookValues) (w : World) : Prop :=
  ∃ ops, run H ops World.init = .ok w

/-- The calls that use a constructed instance without ending its life. -/
inductive Use where
  | paint
  | get_uniform_location (name : String)
  | set_uniform_float (uniform n_components total_count : Int) (value : List gfloat)
  deriving DecidableEq, Repr

/-- One use of instance `quad`. -/
def use (lookup : CoglPipeline → String → Int) (w : World) (quad : Nat) :
    Use → Except Fault World
  | .paint => shell_glsl_quad_paint w quad
  | .get_uniform_location name =>
    match shell_glsl_quad_get_uniform_location lookup w quad name with
    | .error f => .error f
    | .ok r => .ok r.1
  | .set_uniform_float uniform n_components total_count value =>
    shell_glsl_quad_set_uniform_float w quad uniform n_components total_count value

/-- A sequence of uses of arbitrary instances, stopping at the first fault. -/
def use_many (lookup : CoglPipeline → String → Int) :
    List (Nat × Use) → World → Except Fault World
  | [], w => .ok w
  | u :: us, w =>
    match use lookup w u.1 u.2 with
    | .error f => .error f
    | .ok w1 => use_many lookup us w1

/-- How often the `build_pipeline` implementation of class `klass` was invoked. -/
def build_count (klass : Nat) (log : List Event) : Nat :=
  (log.filter (fun e => match e with
    | .build_pipeline k _ => k == klass
    | _ => false)).length

/-- How many `g_return_if_fail` diagnostics were emitted. -/
def critical_count (log : List Event) : Nat :=
  (log.filter (fun e => match e with
    | .critical _ => true
    | _ => false)).length

/-! ## Derived notions and sample data -/

/-- A live cell: allocated and not yet released. -/
def live (w : World) (a : Nat) : Prop :=
  ∃ o, w.heap[a]? = some o ∧ o.ref_count ≠ 0

/-- The pipeline a `build_pipeline` body leaves behind when started on `p`. -/
def apply_calls (H : ShellSnippetHookValues) (body : List SnippetCall) (p : CoglPipeline) :
    CoglPipeline :=
  body.foldl (fun p c =>
    attach_snippet H p c.hook (make_snippet c.hook c.declarations c.code c.is_replace)) p

/-- The instance record `g_object_new` allocates before `constructed` runs. -/
def fresh_instance (klass : Nat) (pipeline : Option Nat) : ShellGLSLQuad :=
  ⟨klass, 255, ⟨0, 0, 0, 0⟩, ⟨pipeline⟩⟩

/-- The base pipeline right after allocation and `cogl_pipeline_set_blend`. -/
def blank_base : CoglPipeline := cogl_pipeline_set_blend cogl_pipeline_new blend_string

/-- The pointer discipline every reachable state obeys: class base pipelines
and instance pipelines point to live cells, every instance has a class, the
base pipeline of a class is never the pipeline of an instance, and no two
instances share a pipeline. -/
structure WF (w : World) : Prop where
  class_live : ∀ (c : Nat) (k : ShellGLSLQuadClass) (bp : Nat),
    w.classes[c]? = some k → k.base_pipeline = some bp → live w bp
  inst_class : ∀ (q : Nat) (s : ShellGLSLQuad),
    w.instances[q]? = some s → s.klass < w.classes.length
  inst_live : ∀ (q : Nat) (s : ShellGLSLQuad) (a : Nat),
    w.instances[q]? = some s → s.priv.pipeline = some a → live w a
  inst_ne_class : ∀ (q : Nat) (s : ShellGLSLQuad) (a c : Nat) (k : ShellGLSLQuadClass),
    w.instances[q]? = some s → s.priv.pipeline = some a →
    w.classes[c]? = some k → k.base_pipeline ≠ some a
  inst_inj : ∀ (q1 q2 : Nat) (s1 s2 : ShellGLSLQuad) (a : Nat),
    w.instances[q1]? = some s1 → w.instances[q2]? = some s2 →
    s1.priv.pipeline = some a → s2.priv.pipeline = some a → q1 = q2

/-- Sample enumerator values for the concrete examples. -/
def demo_hooks : ShellSnippetHookValues := ⟨0, 2048⟩

/-- A sample `build_pipeline` body: one vertex snippet. -/
def demo_body : List SnippetCall := [⟨0, some "uniform float t;", some "v", false⟩]

/-- A sample program: one subtype, two instances. -/
def demo_ops : List Op := [.class_init none (some demo_body), .g_object_new 0, .g_object_new 0]

/-- The base pipeline the sample program builds. -/
def demo_base : CoglPipeline :=
  ⟨some blend_string, (255, 255, 255, 255), [⟨0, some "uniform float t;", some "v", none⟩], [],
    [], []⟩

/-- The instance pipelines the sample program creates. -/
def demo_copy : CoglPipeline :=
  ⟨some blend_string, (255, 255, 255, 255), [⟨0, some "uniform float t;", some "v", none⟩], [],
    [0], []⟩

/-- The state the sample program ends in. -/
def demo_world : World :=
  ⟨[⟨1, demo_base⟩, ⟨1, demo_copy⟩, ⟨1, demo_copy⟩],
    [⟨some 0, some demo_body⟩],
    [fresh_instance 0 (some 1), fresh_instance 0 (some 2)],
    [.build_pipeline 0 0]⟩

/-- The sample state after the host set opacity 0 and a box on instance 0. -/
def demo_world_dim : World :=
  { demo_world with instances :=
      [⟨0, 0, ⟨1, 2, 30, 40⟩, ⟨some 1⟩⟩, fresh_instance 0 (some 2)] }

/-- Every instance belongs to a class whose base pipeline is set. -/
def Built (w : World) : Prop :=
  ∀ (q : Nat) (s : ShellGLSLQuad) (k : ShellGLSLQuadClass),
    w.instances[q]? = some s → w.classes[s.klass]? = some k → k.base_pipeline ≠ none

/-- A sample state in which an instance is allocated and `constructed` has
not run yet: its class has no base pipeline. -/
def demo_world_early : World :=
  ⟨[], [⟨none, some demo_body⟩], [fresh_instance 0 none], []⟩

/-! ## Heap lemmas -/

theorem deref_eq_ok {w : World} {a : Nat} {p : CoglPipeline} :
    deref w a = .ok p ↔ ∃ o, w.heap[a]? = some o ∧ o.ref_count ≠ 0 ∧ o.pipeline = p := by
  unfold deref
  cases h : w.heap[a]? with
  | none => simp
  | some o =>
    by_cases hr : o.ref_count = 0 <;> simp [hr]

theorem live_of_deref {w : World} {a : Nat} {p : CoglPipeline} (h : deref w a = .ok p) :
    live w a := by
  obtain ⟨o, h1, h2, _⟩ := deref_eq_ok.mp h
  exact ⟨o, h1, h2⟩

theorem deref_of_live {w : World} {a : Nat} (h : live w a) : ∃ p, deref w a = .ok p := by
  obtain ⟨o, h1, h2⟩ := h
  exact ⟨o.pipeline, deref_eq_ok.mpr ⟨o, h1, h2, rfl⟩⟩

@[simp] theorem store_classes (w : World) (a : Nat) (p : CoglPipeline) :
    (store w a p).classes = w.classes := by
  unfold store; cases w.heap[a]? <;> rfl

@[simp] theorem store_instances (w : World) (a : Nat) (p : CoglPipeline) :
    (store w a p).instances = w.instances := by
  unfold store; cases w.heap[a]? <;> rfl

@[simp] theorem store_log (w : World) (a : Nat) (p : CoglPipeline) :
    (store w a p).log = w.log := by
  unfold store; cases w.heap[a]? <;> rfl

@[simp] theorem store_heap_length (w : World) (a : Nat) (p : CoglPipeline) :
    (store w a p).heap.length = w.heap.length := by
  unfold store; cases w.heap[a]? <;> simp

theorem store_heap_ne (w : World) {a b : Nat} (p : CoglPipeline) (h : b ≠ a) :
    (store w a p).heap[b]? = w.heap[b]? := by
  unfold store
  cases w.heap[a]? with
  | none => rfl
  | some o => simp [List.getElem?_set_ne (Ne.symm h)]

theorem store_heap_self {w : World} {a : Nat} {o : CoglObject} (p : CoglPipeline)
    (h : w.heap[a]? = some o) :
    (store w a p).heap[a]? = some ⟨o.ref_count, p⟩ := by
  have hlt : a < w.heap.length := by
    by_contra hc
    rw [List.getElem?_eq_none (Nat.le_of_not_lt hc)] at h
    cases h
  unfold store
  rw [h]
  simp [List.getElem?_set_self hlt]

theorem live_store (w : World) (a b : Nat) (p : CoglPipeline) :
    live (store w a p) b ↔ live w b := by
  by_cases hb : b = a
  · subst hb
    unfold live
    cases h : w.heap[b]? with
    | none =>
      have : (store w b p) = w := by unfold store; rw [h]
      rw [this, h]
    | some o =>
      rw [store_heap_self p h]
      simp
  · unfold live
    rw [store_heap_ne w p hb]

theorem deref_store_ne (w : World) {a b : Nat} (p : CoglPipeline) (h : b ≠ a) :
    deref (store w a p) b = deref w b := by
  unfold deref
  rw [store_heap_ne w p h]

theorem deref_store_self {w : World} {a : Nat} (p : CoglPipeline) (h : live w a) :
    deref (store w a p) a = .ok p := by
  obtain ⟨o, h1, h2⟩ := h
  exact deref_eq_ok.mpr ⟨_, store_heap_self p h1, h2, rfl⟩

@[simp] theorem emit_heap (w : World) (e : Event) : (emit w e).heap = w.heap := rfl
@[simp] theorem emit_classes (w : World) (e : Event) : (emit w e).classes = w.classes := rfl
@[simp] theorem emit_instances (w : World) (e : Event) : (emit w e).instances = w.instances := rfl
@[simp] theorem emit_log (w : World) (e : Event) : (emit w e).log = w.log ++ [e] := rfl

@[simp] theorem alloc_classes (w : World) (p : CoglPipeline) : (alloc w p).classes = w.classes := rfl
@[simp] theorem alloc_instances (w : World) (p : CoglPipeline) :
    (alloc w p).instances = w.instances := rfl
@[simp] theorem alloc_log (w : World) (p : CoglPipeline) : (alloc w p).log = w.log := rfl
@[simp] theorem alloc_heap (w : World) (p : CoglPipeline) :
    (alloc w p).heap = w.heap ++ [⟨1, p⟩] := rfl

theorem live_lt {w : World} {a : Nat} (h : live w a) : a < w.heap.length := by
  obtain ⟨o, h1, _⟩ := h
  by_contra hc
  rw [List.getElem?_eq_none (Nat.le_of_not_lt hc)] at h1
  cases h1

/-! ## The build step -/

theorem store_store (w : World) (a : Nat) (p q : CoglPipeline) :
    store (store w a p) a q = store w a q := by
  cases h : w.heap[a]? with
  | none =>
    have : store w a p = w := by unfold store; rw [h]
    rw [this]
  | some o =>
    have h1 := store_heap_self p h
    rw [store.eq_def (store w a p), h1]
    simp only
    rw [store.eq_def w a q, store.eq_def w a p, h]
    simp [List.set_set]

theorem get_class_store (w : World) (a : Nat) (p : CoglPipeline) (quad : Nat) :
    get_class (store w a p) quad = get_class w quad := by
  simp [get_class]

theorem get_instance_store (w : World) (a : Nat) (p : CoglPipeline) (quad : Nat) :
    get_instance (store w a p) quad = get_instance w quad := by
  simp [get_instance]

theorem add_glsl_snippet_ok {H : ShellSnippetHookValues} {w : World} {quad bp : Nat}
    {k : ShellGLSLQuadClass} {p : CoglPipeline}
    (hk : get_class w quad = .ok k) (hb : k.base_pipeline = some bp)
    (hp : deref w bp = .ok p) (hook : Int) (d c : Option String) (r : Bool) :
    shell_glsl_quad_add_glsl_snippet H w quad hook d c r =
      .ok (store w bp (attach_snippet H p hook (make_snippet hook d c r))) := by
  unfold shell_glsl_quad_add_glsl_snippet
  rw [hk]
  simp only [hb, hp]

theorem add_glsl_snippet_null {H : ShellSnippetHookValues} {w : World} {quad : Nat}
    {k : ShellGLSLQuadClass}
    (hk : get_class w quad = .ok k) (hb : k.base_pipeline = none)
    (hook : Int) (d c : Option String) (r : Bool) :
    shell_glsl_quad_add_glsl_snippet H w quad hook d c r =
      .ok (emit w (.critical "klass->base_pipeline != NULL")) := by
  unfold shell_glsl_quad_add_glsl_snippet
  rw [hk]
  simp only [hb]

theorem run_build_pipeline_ok (H : ShellSnippetHookValues) (quad bp : Nat)
    (k : ShellGLSLQuadClass) (body : List SnippetCall) :
    ∀ (w : World) (p : CoglPipeline), get_class w quad = .ok k → k.base_pipeline = some bp →
      deref w bp = .ok p →
      run_build_pipeline H quad body w = .ok (store w bp (apply_calls H body p)) := by
  induction body with
  | nil =>
    intro w p _ _ hp
    obtain ⟨o, h1, _, h3⟩ := deref_eq_ok.mp hp
    have hlt : bp < w.heap.length := live_lt (live_of_deref hp)
    simp only [run_build_pipeline, apply_calls, List.foldl_nil]
    unfold store
    rw [h1]
    simp only
    congr 1
    cases w
    simp only [World.mk.injEq, and_true, true_and]
    simp only at h1
    subst h3
    apply List.ext_getElem?
    intro i
    by_cases hi : bp = i
    · subst hi
      rw [List.getElem?_set_self hlt, h1]
    · rw [List.getElem?_set_ne hi]
  | cons c cs ih =>
    intro w p hk hb hp
    simp only [run_build_pipeline]
    rw [add_glsl_snippet_ok hk hb hp]
    simp only
    rw [ih _ (attach_snippet H p c.hook (make_snippet c.hook c.declarations c.code c.is_replace))
      (by rw [get_class_store]; exact hk) hb (deref_store_self _ (live_of_deref hp))]
    rw [store_store]
    simp [apply_calls]

/-! ## Instance creation in closed form -/

theorem getElem?_lt_of_some {α : Type} {l : List α} {i : Nat} {x : α} (h : l[i]? = some x) :
    i < l.length := by
  by_contra hc
  rw [List.getElem?_eq_none (Nat.le_of_not_lt hc)] at h
  cases h

theorem g_object_new_cached {H : ShellSnippetHookValues} {w : World} {klass bp : Nat}
    {k : ShellGLSLQuadClass} {base : CoglPipeline}
    (hk : w.classes[klass]? = some k) (hb : k.base_pipeline = some bp)
    (hp : deref w bp = .ok base) :
    g_object_new H w klass = .ok
      { heap := w.heap ++ [⟨1, cogl_pipeline_set_layer_null_texture base 0⟩],
        classes := w.classes,
        instances := w.instances ++ [fresh_instance klass (some w.heap.length)],
        log := w.log } := by
  have hlt := getElem?_lt_of_some hk
  unfold g_object_new
  rw [if_pos hlt]
  unfold shell_glsl_quad_constructed build_base_pipeline
  simp only [get_instance, get_class, List.getElem?_concat_length, hk, hb]
  have hd : deref ⟨w.heap, w.classes,
      w.instances ++ [⟨klass, 255, ⟨0, 0, 0, 0⟩, ⟨none⟩⟩], w.log⟩ bp = .ok base := hp
  simp only [hd, alloc, fresh_instance]
  congr 2
  rw [List.set_append_right _ _ (Nat.le_refl _)]
  simp

theorem build_base_pipeline_build {H : ShellSnippetHookValues} {w : World} {object : Nat}
    {self : ShellGLSLQuad} {k : ShellGLSLQuadClass}
    (hi : get_instance w object = .ok self) (hk : w.classes[self.klass]? = some k)
    (hb : k.base_pipeline = none) :
    build_base_pipeline H w object = .ok
      { heap := w.heap ++ [⟨1, apply_calls H (k.build_pipeline.getD []) blank_base⟩],
        classes := w.classes.set self.klass ⟨some w.heap.length, k.build_pipeline⟩,
        instances := w.instances,
        log := w.log ++ (match k.build_pipeline with
          | some _ => [Event.build_pipeline self.klass object]
          | none => []) } := by
  have hlt := getElem?_lt_of_some hk
  have hi2 : w.instances[object]? = some self := by
    unfold get_instance at hi
    cases h : w.instances[object]? with
    | none => rw [h] at hi; cases hi
    | some s => rw [h] at hi; cases hi; rfl
  have hc : get_class w object = .ok k := by
    simp [get_class, hi2, hk]
  unfold build_base_pipeline
  rw [hi, hc]
  simp only [hb]
  cases hbp : k.build_pipeline with
  | none => simp [alloc, blank_base, apply_calls]
  | some body =>
    simp only [Option.getD_some]
    have hc2 : get_class (emit { alloc w blank_base with
        classes := (alloc w blank_base).classes.set self.klass
          { k with base_pipeline := some w.heap.length } }
        (.build_pipeline self.klass object)) object
        = .ok { k with base_pipeline := some w.heap.length } := by
      simp [get_class, hi2, List.getElem?_set_self hlt]
    have hd : deref (emit { alloc w blank_base with
        classes := (alloc w blank_base).classes.set self.klass
          { k with base_pipeline := some w.heap.length } }
        (.build_pipeline self.klass object)) w.heap.length = .ok blank_base := by
      apply deref_eq_ok.mpr
      exact ⟨⟨1, blank_base⟩, by simp, by simp, rfl⟩
    have := run_build_pipeline_ok H object w.heap.length _ body _ _ hc2 rfl hd
    simp only [blank_base, hbp] at this ⊢
    rw [this]
    simp only [store, emit, alloc, List.getElem?_concat_length]
    congr 2
    rw [List.set_append_right _ _ (Nat.le_refl _)]
    simp

theorem g_object_new_build {H : ShellSnippetHookValues} {w : World} {klass : Nat}
    {k : ShellGLSLQuadClass}
    (hk : w.classes[klass]? = some k) (hb : k.base_pipeline = none) :
    g_object_new H w klass = .ok
      { heap := w.heap ++ [⟨1, apply_calls H (k.build_pipeline.getD []) blank_base⟩,
          ⟨1, cogl_pipeline_set_layer_null_texture
            (apply_calls H (k.build_pipeline.getD []) blank_base) 0⟩],
        classes := w.classes.set klass ⟨some w.heap.length, k.build_pipeline⟩,
        instances := w.instances ++ [fresh_instance klass (some (w.heap.length + 1))],
        log := w.log ++ (match k.build_pipeline with
          | some _ => [Event.build_pipeline klass w.instances.length]
          | none => []) } := by
  have hlt := getElem?_lt_of_some hk
  unfold g_object_new
  rw [if_pos hlt]
  unfold shell_glsl_quad_constructed
  have hi : get_instance ⟨w.heap, w.classes,
      w.instances ++ [⟨klass, 255, ⟨0, 0, 0, 0⟩, ⟨none⟩⟩], w.log⟩ w.instances.length
      = .ok ⟨klass, 255, ⟨0, 0, 0, 0⟩, ⟨none⟩⟩ := by
    simp [get_instance]
  rw [build_base_pipeline_build hi hk hb]
  simp only [get_instance, get_class, List.getElem?_concat_length,
    List.getElem?_set_self hlt]
  have hd : deref ⟨w.heap ++ [⟨1, apply_calls H (k.build_pipeline.getD []) blank_base⟩],
      w.classes.set klass ⟨some w.heap.length, k.build_pipeline⟩,
      w.instances ++ [⟨klass, 255, ⟨0, 0, 0, 0⟩, ⟨none⟩⟩], w.log ++
        (match k.build_pipeline with
          | some _ => [Event.build_pipeline klass w.instances.length]
          | none => [])⟩ w.heap.length
      = .ok (apply_calls H (k.build_pipeline.getD []) blank_base) := by
    apply deref_eq_ok.mpr
    exact ⟨_, List.getElem?_concat_length _ _, by simp, rfl⟩
  simp only [hd, alloc, fresh_instance]
  congr 2
  · simp
  · rw [List.set_append_right _ _ (Nat.le_refl _)]
    simp

/-! ## The pointer discipline -/

theorem WF_init : WF World.init := by
  constructor <;> intros <;> simp_all [World.init]

theorem getElem?_concat_eq_some {α : Type} {l : List α} {x y : α} {i : Nat}
    (h : (l ++ [x])[i]? = some y) : l[i]? = some y ∨ (i = l.length ∧ x = y) := by
  by_cases hi : i < l.length
  · rw [List.getElem?_append_left hi] at h
    exact Or.inl h
  · have hlt := getElem?_lt_of_some h
    simp only [List.length_append, List.length_singleton] at hlt
    have : i = l.length := by omega
    subst this
    rw [List.getElem?_concat_length] at h
    exact Or.inr ⟨rfl, Option.some.inj h⟩

theorem getElem?_set_eq_some {α : Type} {l : List α} {x y : α} {i j : Nat}
    (h : (l.set i x)[j]? = some y) : (j = i ∧ x = y) ∨ (j ≠ i ∧ l[j]? = some y) := by
  by_cases hj : i = j
  · subst hj
    have hlt := getElem?_lt_of_some h
    simp only [List.length_set] at hlt
    rw [List.getElem?_set_self hlt] at h
    exact Or.inl ⟨rfl, Option.some.inj h⟩
  · rw [List.getElem?_set_ne hj] at h
    exact Or.inr ⟨fun e => hj e.symm, h⟩

theorem live_append {w w' : World} {l : List CoglObject} (h : w'.heap = w.heap ++ l) {a : Nat}
    (ha : live w a) : live w' a := by
  obtain ⟨o, h1, h2⟩ := ha
  refine ⟨o, ?_, h2⟩
  rw [h, List.getElem?_append_left (getElem?_lt_of_some h1)]
  exact h1

/-- A state change that keeps the classes, keeps class and private data of
every instance, and keeps live cells alive, keeps the pointer discipline. -/
theorem WF_frame {w w' : World} (hwf : WF w) (hc : w'.classes = w.classes)
    (hi : ∀ (q : Nat) (s' : ShellGLSLQuad), w'.instances[q]? = some s' →
      ∃ s, w.instances[q]? = some s ∧ s.klass = s'.klass ∧ s.priv = s'.priv)
    (hl : ∀ a, live w a → live w' a) : WF w' := by
  constructor
  · intro c k bp h1 h2
    rw [hc] at h1
    exact hl _ (hwf.class_live c k bp h1 h2)
  · intro q s' h1
    obtain ⟨s, hs, hk, _⟩ := hi q s' h1
    rw [hc, ← hk]
    exact hwf.inst_class q s hs
  · intro q s' a h1 h2
    obtain ⟨s, hs, _, hp⟩ := hi q s' h1
    exact hl _ (hwf.inst_live q s a hs (by rw [hp]; exact h2))
  · intro q s' a c k h1 h2 h3
    obtain ⟨s, hs, _, hp⟩ := hi q s' h1
    rw [hc] at h3
    exact hwf.inst_ne_class q s a c k hs (by rw [hp]; exact h2) h3
  · intro q1 q2 s1 s2 a h1 h2 h3 h4
    obtain ⟨t1, ht1, _, hp1⟩ := hi q1 s1 h1
    obtain ⟨t2, ht2, _, hp2⟩ := hi q2 s2 h2
    exact hwf.inst_inj q1 q2 t1 t2 a ht1 ht2 (by rw [hp1]; exact h3) (by rw [hp2]; exact h4)

theorem get_instance_ok {w : World} {q : Nat} {s : ShellGLSLQuad} :
    get_instance w q = .ok s ↔ w.instances[q]? = some s := by
  unfold get_instance
  cases h : w.instances[q]? <;> simp

theorem get_class_ok {w : World} {q : Nat} {k : ShellGLSLQuadClass} :
    get_class w q = .ok k ↔ ∃ s, w.instances[q]? = some s ∧ w.classes[s.klass]? = some k := by
  unfold get_class
  cases h : w.instances[q]? with
  | none => simp
  | some s =>
    cases h2 : w.classes[s.klass]? <;> simp [h2]

/-- Closed form of `shell_glsl_quad_paint` on an instance with a live pipeline. -/
theorem paint_ok {w : World} {actor a : Nat} {self : ShellGLSLQuad} {p : CoglPipeline}
    (hi : w.instances[actor]? = some self) (ha : self.priv.pipeline = some a)
    (hp : deref w a = .ok p) :
    shell_glsl_quad_paint w actor = .ok (emit (store w a
        (cogl_pipeline_set_color4ub p (self.paint_opacity % 256) (self.paint_opacity % 256)
          (self.paint_opacity % 256) (self.paint_opacity % 256)))
      (.draw_rectangle a
        (cogl_pipeline_set_color4ub p (self.paint_opacity % 256) (self.paint_opacity % 256)
          (self.paint_opacity % 256) (self.paint_opacity % 256))
        self.allocation.x1 self.allocation.y1 self.allocation.x2 self.allocation.y2)) := by
  unfold shell_glsl_quad_paint
  rw [get_instance_ok.mpr hi]
  simp only [ha, hp]

/-- A successful `shell_glsl_quad_paint` was a paint of an instance with a live pipeline. -/
theorem paint_inv {w w' : World} {actor : Nat} (h : shell_glsl_quad_paint w actor = .ok w') :
    ∃ self a p, w.instances[actor]? = some self ∧ self.priv.pipeline = some a ∧
      deref w a = .ok p := by
  unfold shell_glsl_quad_paint at h
  cases hi : get_instance w actor with
  | error f => rw [hi] at h; cases h
  | ok self =>
    rw [hi] at h
    simp only at h
    cases ha : self.priv.pipeline with
    | none => rw [ha] at h; cases h
    | some a =>
      rw [ha] at h
      simp only at h
      cases hp : deref w a with
      | error f => rw [hp] at h; cases h
      | ok p => exact ⟨self, a, p, get_instance_ok.mp hi, ha, hp⟩

/-- A successful `shell_glsl_quad_set_uniform_float` stored one new pipeline
value in the live cell of the instance. -/
theorem set_uniform_float_inv {w w' : World} {quad : Nat} {u n t : Int} {v : List gfloat}
    (h : shell_glsl_quad_set_uniform_float w quad u n t v = .ok w') :
    ∃ self a p count p1, w.instances[quad]? = some self ∧ self.priv.pipeline = some a ∧
      deref w a = .ok p ∧ c_int_div t n = .ok count ∧
      cogl_pipeline_set_uniform_float p u n count v = .ok p1 ∧ w' = store w a p1 := by
  unfold shell_glsl_quad_set_uniform_float at h
  cases hi : get_instance w quad with
  | error f => rw [hi] at h; cases h
  | ok self =>
    rw [hi] at h
    simp only at h
    cases hd : c_int_div t n with
    | error f => rw [hd] at h; cases h
    | ok count =>
      rw [hd] at h
      simp only at h
      cases ha : self.priv.pipeline with
      | none => rw [ha] at h; cases h
      | some a =>
        rw [ha] at h
        simp only at h
        cases hp : deref w a with
        | error f => rw [hp] at h; cases h
        | ok p =>
          rw [hp] at h
          simp only at h
          cases hs : cogl_pipeline_set_uniform_float p u n count v with
          | error f => rw [hs] at h; cases h
          | ok p1 =>
            rw [hs] at h
            simp only [Except.ok.injEq] at h
            exact ⟨self, a, p, count, p1, get_instance_ok.mp hi, ha, hp, rfl, hs, h.symm⟩

theorem add_glsl_snippet_inv {H : ShellSnippetHookValues} {w w' : World} {quad : Nat}
    {hook : Int} {d c : Option String} {r : Bool}
    (h : shell_glsl_quad_add_glsl_snippet H w quad hook d c r = .ok w') :
    ∃ k, get_class w quad = .ok k ∧
      ((k.base_pipeline = none ∧ w' = emit w (.critical "klass->base_pipeline != NULL")) ∨
       (∃ bp p, k.base_pipeline = some bp ∧ deref w bp = .ok p ∧
          w' = store w bp (attach_snippet H p hook (make_snippet hook d c r)))) := by
  cases hk : get_class w quad with
  | error f => unfold shell_glsl_quad_add_glsl_snippet at h; rw [hk] at h; cases h
  | ok k =>
    refine ⟨k, rfl, ?_⟩
    cases hb : k.base_pipeline with
    | none =>
      rw [add_glsl_snippet_null hk hb] at h
      exact Or.inl ⟨rfl, (Except.ok.inj h).symm⟩
    | some bp =>
      cases hp : deref w bp with
      | error f =>
        unfold shell_glsl_quad_add_glsl_snippet at h
        rw [hk] at h
        simp only [hb, hp] at h
        cases h
      | ok p =>
        rw [add_glsl_snippet_ok hk hb hp] at h
        exact Or.inr ⟨bp, p, rfl, hp, (Except.ok.inj h).symm⟩

theorem WF_store {w : World} (hwf : WF w) (a : Nat) (p : CoglPipeline) : WF (store w a p) :=
  WF_frame hwf (store_classes w a p)
    (fun q s' h => ⟨s', by rw [store_instances] at h; exact h, rfl, rfl⟩)
    (fun b hb => (live_store w a b p).mpr hb)

theorem WF_emit {w : World} (hwf : WF w) (e : Event) : WF (emit w e) :=
  WF_frame hwf rfl (fun _ s' h => ⟨s', h, rfl, rfl⟩) (fun _ hb => hb)

theorem WF_paint {w w' : World} {actor : Nat} (hwf : WF w)
    (h : shell_glsl_quad_paint w actor = .ok w') : WF w' := by
  obtain ⟨self, a, p, hi, ha, hp⟩ := paint_inv h
  rw [paint_ok hi ha hp] at h
  rw [← Except.ok.inj h]
  exact WF_emit (WF_store hwf _ _) _

theorem WF_set_uniform_float {w w' : World} {quad : Nat} {u n t : Int} {v : List gfloat}
    (hwf : WF w) (h : shell_glsl_quad_set_uniform_float w quad u n t v = .ok w') : WF w' := by
  obtain ⟨self, a, p, count, p1, _, _, _, _, _, hw⟩ := set_uniform_float_inv h
  rw [hw]
  exact WF_store hwf _ _

theorem WF_add_glsl_snippet {H : ShellSnippetHookValues} {w w' : World} {quad : Nat}
    {hook : Int} {d c : Option String} {r : Bool} (hwf : WF w)
    (h : shell_glsl_quad_add_glsl_snippet H w quad hook d c r = .ok w') : WF w' := by
  obtain ⟨k, _, h1 | ⟨bp, p, _, _, h2⟩⟩ := add_glsl_snippet_inv h
  · rw [h1.2]; exact WF_emit hwf _
  · rw [h2]; exact WF_store hwf _ _

theorem WF_host_update {w w' : World} {actor opacity : Nat} {box : ClutterActorBox}
    (hwf : WF w) (h : host_update w actor opacity box = .ok w') : WF w' := by
  unfold host_update at h
  cases hi : get_instance w actor with
  | error f => rw [hi] at h; cases h
  | ok self =>
    rw [hi] at h
    have hw := (Except.ok.inj h).symm
    subst hw
    refine WF_frame hwf rfl ?_ (fun b hb => hb)
    intro q s' hq
    rcases getElem?_set_eq_some hq with ⟨rfl, rfl⟩ | ⟨_, h2⟩
    · exact ⟨self, get_instance_ok.mp hi, rfl, rfl⟩
    · exact ⟨s', h2, rfl, rfl⟩

theorem WF_class_init {w w' : World} {parent : Option Nat}
    {bp : Option (List SnippetCall)} (hwf : WF w) (h : class_init w parent bp = .ok w') :
    WF w' := by
  have key : ∀ b : Option Nat, (∀ a, b = some a →
      ∃ (c : Nat) (k : ShellGLSLQuadClass), w.classes[c]? = some k ∧
      k.base_pipeline = some a) →
      WF { w with classes := w.classes ++ [⟨b, bp⟩] } := by
    intro b hb
    constructor
    · intro c k a h1 h2
      rcases getElem?_concat_eq_some h1 with h3 | ⟨_, rfl⟩
      · exact hwf.class_live c k a h3 h2
      · obtain ⟨c', k', h4, h5⟩ := hb a h2
        exact hwf.class_live c' k' a h4 h5
    · intro q s h1
      have := hwf.inst_class q s h1
      simp only [List.length_append, List.length_singleton]
      omega
    · intro q s a h1 h2
      exact hwf.inst_live q s a h1 h2
    · intro q s a c k h1 h2 h3
      rcases getElem?_concat_eq_some h3 with h4 | ⟨_, rfl⟩
      · exact hwf.inst_ne_class q s a c k h1 h2 h4
      · intro h5
        obtain ⟨c', k', h6, h7⟩ := hb a h5
        exact hwf.inst_ne_class q s a c' k' h1 h2 h6 h7
    · intro q1 q2 s1 s2 a h1 h2 h3 h4
      exact hwf.inst_inj q1 q2 s1 s2 a h1 h2 h3 h4
  unfold class_init at h
  cases parent with
  | none =>
    simp only [Except.ok.injEq] at h
    rw [← h]
    exact key none (fun a ha => by cases ha)
  | some c =>
    simp only at h
    cases hc : w.classes[c]? with
    | none => rw [hc] at h; cases h
    | some k =>
      rw [hc] at h
      simp only [Except.ok.injEq] at h
      rw [← h]
      exact key k.base_pipeline (fun a ha => ⟨c, k, hc, ha⟩)

theorem WF_dispose {w w' : World} {gobject : Nat} (hwf : WF w)
    (h : shell_glsl_quad_dispose w gobject = .ok w') : WF w' := by
  unfold shell_glsl_quad_dispose at h
  cases hi : get_instance w gobject with
  | error f => rw [hi] at h; cases h
  | ok self =>
    rw [hi] at h
    have hi2 := get_instance_ok.mp hi
    simp only at h
    cases ha : self.priv.pipeline with
    | none =>
      rw [ha] at h
      rw [← Except.ok.inj h]
      exact hwf
    | some a =>
      rw [ha] at h
      simp only at h
      unfold cogl_object_unref at h
      cases ho : w.heap[a]? with
      | none => rw [ho] at h; cases h
      | some o =>
        rw [ho] at h
        simp only at h
        by_cases hr : o.ref_count = 0
        · rw [if_pos hr] at h; cases h
        · rw [if_neg hr] at h
          simp only [Except.ok.injEq] at h
          subst h
          have hlive : ∀ b, b ≠ a → live w b →
              live ⟨w.heap.set a { o with ref_count := o.ref_count - 1 }, w.classes,
                w.instances.set gobject { self with priv := ⟨none⟩ }, w.log⟩ b := by
            intro b hb ⟨o', h1, h2⟩
            refine ⟨o', ?_, h2⟩
            simp only
            rw [List.getElem?_set_ne (Ne.symm hb)]
            exact h1
          constructor
          · intro c k bp h1 h2
            refine hlive bp ?_ (hwf.class_live c k bp h1 h2)
            intro e
            subst e
            exact hwf.inst_ne_class gobject self bp c k hi2 ha h1 h2
          · intro q s h1
            rcases getElem?_set_eq_some h1 with ⟨_, rfl⟩ | ⟨_, h2⟩
            · exact hwf.inst_class gobject self hi2
            · exact hwf.inst_class q s h2
          · intro q s b h1 h2
            rcases getElem?_set_eq_some h1 with ⟨_, rfl⟩ | ⟨hq, h3⟩
            · cases h2
            · refine hlive b ?_ (hwf.inst_live q s b h3 h2)
              intro e
              subst e
              exact hq (hwf.inst_inj q gobject s self b h3 hi2 h2 ha)
          · intro q s b c k h1 h2 h3
            rcases getElem?_set_eq_some h1 with ⟨_, rfl⟩ | ⟨_, h4⟩
            · cases h2
            · exact hwf.inst_ne_class q s b c k h4 h2 h3
          · intro q1 q2 s1 s2 b h1 h2 h3 h4
            rcases getElem?_set_eq_some h1 with ⟨_, rfl⟩ | ⟨_, h5⟩
            · cases h3
            · rcases getElem?_set_eq_some h2 with ⟨_, rfl⟩ | ⟨_, h6⟩
              · cases h4
              · exact hwf.inst_inj q1 q2 s1 s2 b h5 h6 h3 h4


theorem live_concat_self (h : List CoglObject) (c : List ShellGLSLQuadClass)
    (i : List ShellGLSLQuad) (l : List Event) (p : CoglPipeline) :
    live ⟨h ++ [⟨1, p⟩], c, i, l⟩ h.length :=
  ⟨⟨1, p⟩, List.getElem?_concat_length _ _, by simp⟩

/-- Adding an instance whose pipeline is a fresh live cell, different from
every class base pipeline, keeps the pointer discipline. -/
theorem WF_new_instance {w w' : World} {klass a : Nat} (hwf : WF w)
    (hkl : klass < w'.classes.length)
    (hlen : w'.classes.length = w.classes.length)
    (hinst : w'.instances = w.instances ++ [fresh_instance klass (some a)])
    (hlive : ∀ b, live w b → live w' b)
    (ha : live w' a) (hfresh : ¬ live w a)
    (hcls : ∀ (c : Nat) (k : ShellGLSLQuadClass) (bp : Nat), w'.classes[c]? = some k →
      k.base_pipeline = some bp → live w' bp ∧ bp ≠ a ∧
        ((∃ (c' : Nat) (k' : ShellGLSLQuadClass), w.classes[c']? = some k' ∧
          k'.base_pipeline = some bp) ∨ ¬ live w bp)) : WF w' := by
  constructor
  · intro c k bp h1 h2
    exact (hcls c k bp h1 h2).1
  · intro q s h1
    rw [hinst] at h1
    rcases getElem?_concat_eq_some h1 with h3 | ⟨_, rfl⟩
    · rw [hlen]; exact hwf.inst_class q s h3
    · exact hkl
  · intro q s b h1 h2
    rw [hinst] at h1
    rcases getElem?_concat_eq_some h1 with h3 | ⟨_, rfl⟩
    · exact hlive b (hwf.inst_live q s b h3 h2)
    · simp only [fresh_instance, Option.some.injEq] at h2
      rw [← h2]; exact ha
  · intro q s b c k h1 h2 h3 h4
    rw [hinst] at h1
    rcases getElem?_concat_eq_some h1 with h5 | ⟨_, rfl⟩
    · have hb := hwf.inst_live q s b h5 h2
      rcases (hcls c k b h3 h4).2.2 with ⟨c', k', h6, h7⟩ | h6
      · exact hwf.inst_ne_class q s b c' k' h5 h2 h6 h7
      · exact h6 hb
    · simp only [fresh_instance, Option.some.injEq] at h2
      subst h2
      exact (hcls c k _ h3 h4).2.1 rfl
  · intro q1 q2 s1 s2 b h1 h2 h3 h4
    rw [hinst] at h1 h2
    rcases getElem?_concat_eq_some h1 with h5 | ⟨e1, rfl⟩
    · rcases getElem?_concat_eq_some h2 with h6 | ⟨e2, rfl⟩
      · exact hwf.inst_inj q1 q2 s1 s2 b h5 h6 h3 h4
      · simp only [fresh_instance, Option.some.injEq] at h4
        subst h4
        exact absurd (hwf.inst_live q1 s1 _ h5 h3) hfresh
    · rcases getElem?_concat_eq_some h2 with h6 | ⟨e2, rfl⟩
      · simp only [fresh_instance, Option.some.injEq] at h3
        subst h3
        exact absurd (hwf.inst_live q2 s2 _ h6 h4) hfresh
      · rw [e1, e2]


theorem getElem?_append_two_fst {α : Type} (l : List α) (x y : α) :
    (l ++ [x, y])[l.length]? = some x := by
  rw [List.getElem?_append_right (Nat.le_refl _)]
  simp

theorem getElem?_append_two_snd {α : Type} (l : List α) (x y : α) :
    (l ++ [x, y])[l.length + 1]? = some y := by
  rw [List.getElem?_append_right (Nat.le_succ _)]
  simp

theorem not_live_length (w : World) : ¬ live w w.heap.length :=
  fun h => Nat.lt_irrefl _ (live_lt h)

theorem not_live_length_succ (w : World) : ¬ live w (w.heap.length + 1) :=
  fun h => absurd (live_lt h) (by omega)

theorem WF_g_object_new {H : ShellSnippetHookValues} {w w' : World} {klass : Nat}
    (hwf : WF w) (h : g_object_new H w klass = .ok w') : WF w' := by
  have hlt : klass < w.classes.length := by
    unfold g_object_new at h
    by_contra hc
    rw [if_neg hc] at h
    cases h
  obtain ⟨k, hk⟩ : ∃ k, w.classes[klass]? = some k :=
    ⟨w.classes[klass], List.getElem?_eq_getElem hlt⟩
  cases hb : k.base_pipeline with
  | some bp =>
    obtain ⟨base, hbase⟩ := deref_of_live (hwf.class_live klass k bp hk hb)
    rw [g_object_new_cached hk hb hbase] at h
    have hw := (Except.ok.inj h).symm
    subst hw
    have hmono : ∀ b, live w b → live (⟨w.heap ++ [⟨1, cogl_pipeline_set_layer_null_texture
        base 0⟩], w.classes, w.instances ++ [fresh_instance klass (some w.heap.length)],
        w.log⟩ : World) b := fun b hb => live_append rfl hb
    refine WF_new_instance hwf hlt rfl rfl hmono (live_concat_self _ _ _ _ _)
      (not_live_length w) ?_
    intro c k' bp' h1 h2
    have hl := hwf.class_live c k' bp' h1 h2
    exact ⟨hmono _ hl, Nat.ne_of_lt (live_lt hl), Or.inl ⟨c, k', h1, h2⟩⟩
  | none =>
    rw [g_object_new_build hk hb] at h
    have hw := (Except.ok.inj h).symm
    subst hw
    have hmono : ∀ b, live w b → live (⟨w.heap ++
        [⟨1, apply_calls H (k.build_pipeline.getD []) blank_base⟩,
          ⟨1, cogl_pipeline_set_layer_null_texture
            (apply_calls H (k.build_pipeline.getD []) blank_base) 0⟩],
        w.classes.set klass ⟨some w.heap.length, k.build_pipeline⟩,
        w.instances ++ [fresh_instance klass (some (w.heap.length + 1))],
        w.log ++ (match k.build_pipeline with
          | some _ => [Event.build_pipeline klass w.instances.length]
          | none => [])⟩ : World) b := fun b hb => live_append rfl hb
    refine WF_new_instance hwf (by simpa using hlt) (by simp) rfl hmono ?_
      (not_live_length_succ w) ?_
    · exact ⟨_, getElem?_append_two_snd _ _ _, by simp⟩
    · intro c k' bp' h1 h2
      rcases getElem?_set_eq_some h1 with ⟨_, rfl⟩ | ⟨_, h3⟩
      · simp only [Option.some.injEq] at h2
        subst h2
        exact ⟨⟨_, getElem?_append_two_fst _ _ _, by simp⟩, by omega,
          Or.inr (not_live_length w)⟩
      · have hl := hwf.class_live c k' bp' h3 h2
        exact ⟨hmono _ hl, by have := live_lt hl; omega, Or.inl ⟨c, k', h3, h2⟩⟩

theorem WF_step {H : ShellSnippetHookValues} {w w' : World} {op : Op} (hwf : WF w)
    (h : step H w op = .ok w') : WF w' := by
  cases op with
  | class_init parent bp => exact WF_class_init hwf h
  | g_object_new klass => exact WF_g_object_new hwf h
  | host_update actor opacity box => exact WF_host_update hwf h
  | paint actor => exact WF_paint hwf h
  | add_glsl_snippet quad c => exact WF_add_glsl_snippet hwf h
  | set_uniform_float quad u n t v => exact WF_set_uniform_float hwf h
  | dispose gobject => exact WF_dispose hwf h

theorem WF_run {H : ShellSnippetHookValues} (ops : List Op) :
    ∀ {w w' : World}, WF w → run H ops w = .ok w' → WF w' := by
  induction ops with
  | nil =>
    intro w w' hwf h
    rw [← Except.ok.inj h]
    exact hwf
  | cons op ops ih =>
    intro w w' hwf h
    simp only [run] at h
    cases hs : step H w op with
    | error f => rw [hs] at h; cases h
    | ok w1 =>
      rw [hs] at h
      exact ih (WF_step hwf hs) h

/-- Every reachable state obeys the pointer discipline. -/
theorem WF_of_reachable {H : ShellSnippetHookValues} {w : World} (h : Reachable H w) :
    WF w := by
  obtain ⟨ops, hops⟩ := h
  exact WF_run ops WF_init hops


/-! ## The sample program -/

theorem demo_run : run demo_hooks demo_ops World.init = .ok demo_world := by
  rfl

theorem demo_reachable : Reachable demo_hooks demo_world := ⟨demo_ops, demo_run⟩

/-! ## Uniform upload -/

/-- Closed form of `shell_glsl_quad_set_uniform_float` once the division and
the buffer read are known to succeed. -/
theorem set_uniform_float_ok {w : World} {quad a : Nat} {self : ShellGLSLQuad}
    {p : CoglPipeline} {u n t count : Int} {v floats : List gfloat}
    (hi : w.instances[quad]? = some self) (ha : self.priv.pipeline = some a)
    (hp : deref w a = .ok p) (hd : c_int_div t n = .ok count)
    (hr : read_floats n count v = .ok floats) :
    shell_glsl_quad_set_uniform_float w quad u n t v =
      .ok (store w a { p with uniforms := p.uniforms ++ [⟨u, n, count, floats⟩] }) := by
  unfold shell_glsl_quad_set_uniform_float
  rw [get_instance_ok.mpr hi, hd]
  simp only [ha, hp, cogl_pipeline_set_uniform_float, hr]

theorem c_int_div_pos {n : Int} (t : Int) (hn : 0 < n) :
    c_int_div t n = .ok (Int.tdiv t n) := by
  unfold c_int_div
  have h1 : n ≠ 0 := by omega
  have h2 : ¬ (t = INT_MIN ∧ n = -1) := by
    intro h; omega
  rw [if_neg h1, if_neg h2]

theorem tdiv_bounds {t n : Int} (hn : 0 < n) (ht : 0 ≤ t) :
    0 ≤ Int.tdiv t n ∧ Int.tdiv t n * n ≤ t ∧ t < (Int.tdiv t n + 1) * n ∧
      Int.tdiv t n * n + Int.tmod t n = t ∧ 0 ≤ Int.tmod t n := by
  have hdiv : Int.tdiv t n = t / n := Int.tdiv_eq_ediv ht (Int.le_of_lt hn)
  have hmod : Int.tmod t n = t % n := Int.tmod_eq_emod ht (Int.le_of_lt hn)
  rw [hdiv, hmod]
  have h1 := Int.emod_add_ediv t n
  have h2 := Int.emod_nonneg t (Int.ne_of_gt hn)
  have h3 := Int.emod_lt_of_pos t hn
  have h4 : 0 ≤ t / n := Int.ediv_nonneg ht (Int.le_of_lt hn)
  have h5 : t / n * n = n * (t / n) := Int.mul_comm _ _
  refine ⟨h4, ?_, ?_, ?_, h2⟩
  · rw [h5]; omega
  · rw [Int.add_mul, h5]; omega
  · rw [h5]; omega

/-- C4: for `n_components > 0`, `total_count >= 0` and `total_count %
n_components == 0`, on an instance with a live pipeline and a buffer of
`total_count` floats, `shell_glsl_quad_set_uniform_float` succeeds and
forwards the vector count `total_count / n_components` with component size
`n_components`; the floats Cogl consumes are `count * n_components =
total_count` many, namely the whole buffer, read without overrun. -/
theorem set_uniform_float_exact (w : World) (quad a : Nat) (self : ShellGLSLQuad)
    (p : CoglPipeline) (u n t : Int) (v : List gfloat)
    (hi : w.instances[quad]? = some self) (ha : self.priv.pipeline = some a)
    (hp : deref w a = .ok p) (hn : 0 < n) (ht : 0 ≤ t) (hmod : Int.tmod t n = 0)
    (hv : (v.length : Int) = t) :
    shell_glsl_quad_set_uniform_float w quad u n t v =
        .ok (store w a { p with uniforms := p.uniforms ++ [⟨u, n, Int.tdiv t n, v⟩] }) ∧
      Int.tdiv t n * n = t ∧
      read_floats n (Int.tdiv t n) v = .ok v ∧
      ((Int.tdiv t n * n).toNat = v.length) := by
  obtain ⟨_, _, _, h4, _⟩ := tdiv_bounds hn ht
  rw [hmod, Int.add_zero] at h4
  have hlen : (Int.tdiv t n * n).toNat = v.length := by
    rw [h4, ← hv]; simp
  have hread : read_floats n (Int.tdiv t n) v = .ok v := by
    unfold read_floats
    rw [hlen, if_pos (Nat.le_refl _), List.take_length]
  exact ⟨set_uniform_float_ok hi ha hp (c_int_div_pos t hn) hread, h4, hread, hlen⟩

/-- C4 at a concrete input: two `vec2` from a buffer of four floats. -/
theorem set_uniform_float_exact_witness :
    shell_glsl_quad_set_uniform_float demo_world 0 7 2 4 [10, 20, 30, 40] =
        .ok (store demo_world 1
          { demo_copy with uniforms := demo_copy.uniforms ++
            [⟨7, 2, Int.tdiv 4 2, [10, 20, 30, 40]⟩] }) ∧
      Int.tdiv 4 2 * 2 = 4 ∧
      read_floats 2 (Int.tdiv 4 2) [10, 20, 30, 40] = .ok [10, 20, 30, 40] ∧
      ((Int.tdiv 4 2 * 2).toNat = [10, 20, 30, 40].length) :=
  set_uniform_float_exact demo_world 0 1 (fresh_instance 0 (some 1)) demo_copy 7 2 4
    [10, 20, 30, 40] rfl rfl rfl (by decide) (by decide) (by decide) (by decide)

/-- C10, the statement that fails: with `n_components = -1`, which is not
zero, and `total_count = INT_MIN` the division is undefined as well. -/
theorem set_uniform_float_overflow_counterexample :
    (-1 : Int) ≠ 0 ∧
      shell_glsl_quad_set_uniform_float demo_world 0 7 (-1) INT_MIN [] =
        .error .signed_overflow := by
  constructor
  · decide
  · rfl

/-- C10, amended: for `n_components > 0` and `total_count >= 0`, multiple or
not, on an instance with a live pipeline and a buffer of `total_count`
floats, the call succeeds and forwards the truncated quotient `q`, with
`q * n_components <= total_count < (q + 1) * n_components`; Cogl reads the
first `q * n_components` floats and the trailing `total_count %
n_components` floats are dropped.  With `n_components = 0` the call is a
division by zero.  The division is undefined exactly for `n_components = 0`
and for `total_count = INT_MIN` with `n_components = -1`. -/
theorem set_uniform_float_truncates (w : World) (quad a : Nat) (self : ShellGLSLQuad)
    (p : CoglPipeline) (u n t : Int) (v : List gfloat)
    (hi : w.instances[quad]? = some self) (ha : self.priv.pipeline = some a)
    (hp : deref w a = .ok p) :
    (0 < n → 0 ≤ t → (v.length : Int) = t →
      shell_glsl_quad_set_uniform_float w quad u n t v =
          .ok (store w a { p with uniforms := p.uniforms ++
            [⟨u, n, Int.tdiv t n, v.take (Int.tdiv t n * n).toNat⟩] }) ∧
        Int.tdiv t n * n ≤ t ∧ t < (Int.tdiv t n + 1) * n ∧
        (v.take (Int.tdiv t n * n).toNat).length + (Int.tmod t n).toNat = v.length ∧
        (Int.tdiv t n * n).toNat ≤ v.length) ∧
    (n = 0 → shell_glsl_quad_set_uniform_float w quad u n t v = .error .division_by_zero) ∧
    ((∃ f, c_int_div t n = .error f) ↔ (n = 0 ∨ (t = INT_MIN ∧ n = -1))) := by
  refine ⟨?_, ?_, ?_⟩
  · intro hn ht hv
    obtain ⟨h1, h2, h3, h4, h5⟩ := tdiv_bounds hn ht
    have hd0 : 0 ≤ Int.tdiv t n * n := Int.mul_nonneg h1 (Int.le_of_lt hn)
    have hle : (Int.tdiv t n * n).toNat ≤ v.length := by omega
    have hread : read_floats n (Int.tdiv t n) v =
        .ok (v.take (Int.tdiv t n * n).toNat) := by
      unfold read_floats
      rw [if_pos hle]
    refine ⟨set_uniform_float_ok hi ha hp (c_int_div_pos t hn) hread, h2, h3, ?_, hle⟩
    rw [List.length_take]
    omega
  · intro hn
    unfold shell_glsl_quad_set_uniform_float
    rw [get_instance_ok.mpr hi]
    simp [c_int_div, hn]
  · unfold c_int_div
    by_cases h0 : n = 0
    · simp [h0]
    · by_cases h1 : t = INT_MIN ∧ n = -1
      · simp [h0, h1]
      · rw [if_neg h0, if_neg h1]
        constructor
        · rintro ⟨f, hf⟩; cases hf
        · rintro (h | h)
          · exact absurd h h0
          · exact absurd h h1

/-- C10 amended, at a concrete input: five floats as `vec2` forward two
vectors and drop one float. -/
theorem set_uniform_float_truncates_witness :
    shell_glsl_quad_set_uniform_float demo_world 0 7 2 5 [10, 20, 30, 40, 50] =
      .ok (store demo_world 1 { demo_copy with uniforms := demo_copy.uniforms ++
        [⟨7, 2, 2, [10, 20, 30, 40]⟩] }) :=
  ((set_uniform_float_truncates demo_world 0 1 (fresh_instance 0 (some 1)) demo_copy 7 2 5
    [10, 20, 30, 40, 50] rfl rfl rfl).1 (by decide) (by decide) (by decide)).1

/-! ## Snippet injection -/

theorem append_singleton_ne_self {α : Type} (l : List α) (x : α) : l ++ [x] ≠ l := by
  intro h
  have := congrArg List.length h
  simp at this

/-- C6: a call that passes the precondition (the class base pipeline `p` is
set and live) replaces `p` by a pipeline `p'` in which the snippet is
attached to the pipeline as a whole if and only if the hook is
`SHELL_SNIPPET_HOOK_VERTEX` or `SHELL_SNIPPET_HOOK_FRAGMENT`, and otherwise
attached as a layer snippet of layer 0 and no other layer; exactly one
snippet is added and nothing else in the pipeline changes. -/
theorem add_glsl_snippet_attach_point (H : ShellSnippetHookValues) (w : World)
    (quad bp : Nat) (k : ShellGLSLQuadClass) (p : CoglPipeline) (hook : Int)
    (d c : Option String) (r : Bool)
    (hk : get_class w quad = .ok k) (hb : k.base_pipeline = some bp)
    (hp : deref w bp = .ok p) :
    ∃ p' s, shell_glsl_quad_add_glsl_snippet H w quad hook d c r = .ok (store w bp p') ∧
      deref (store w bp p') bp = .ok p' ∧
      ((hook = H.SHELL_SNIPPET_HOOK_VERTEX ∨ hook = H.SHELL_SNIPPET_HOOK_FRAGMENT) ↔
        (p'.snippets = p.snippets ++ [s] ∧ p'.layer_snippets = p.layer_snippets)) ∧
      (¬ (hook = H.SHELL_SNIPPET_HOOK_VERTEX ∨ hook = H.SHELL_SNIPPET_HOOK_FRAGMENT) ↔
        (p'.snippets = p.snippets ∧ p'.layer_snippets = p.layer_snippets ++ [(0, s)])) ∧
      p'.snippets.length + p'.layer_snippets.length =
        p.snippets.length + p.layer_snippets.length + 1 ∧
      p'.blend = p.blend ∧ p'.color = p.color ∧
      p'.null_texture_layers = p.null_texture_layers ∧ p'.uniforms = p.uniforms := by
  refine ⟨attach_snippet H p hook (make_snippet hook d c r), make_snippet hook d c r,
    add_glsl_snippet_ok hk hb hp hook d c r, deref_store_self _ (live_of_deref hp), ?_⟩
  by_cases hh : hook = H.SHELL_SNIPPET_HOOK_VERTEX ∨ hook = H.SHELL_SNIPPET_HOOK_FRAGMENT
  · have e : attach_snippet H p hook (make_snippet hook d c r) =
        cogl_pipeline_add_snippet p (make_snippet hook d c r) := by
      simp only [attach_snippet, if_pos hh]
    rw [e]
    refine ⟨⟨fun _ => ⟨rfl, rfl⟩, fun _ => hh⟩, ⟨fun h => absurd hh h, ?_⟩, ?_, rfl, rfl, rfl,
      rfl⟩
    · intro h
      exact absurd h.1 (append_singleton_ne_self _ _)
    · simp only [cogl_pipeline_add_snippet, List.length_append, List.length_singleton]
      omega
  · have e : attach_snippet H p hook (make_snippet hook d c r) =
        cogl_pipeline_add_layer_snippet p 0 (make_snippet hook d c r) := by
      simp only [attach_snippet, if_neg hh]
    rw [e]
    refine ⟨⟨fun h => absurd h hh, ?_⟩, ⟨fun _ => ⟨rfl, rfl⟩, fun _ => hh⟩, ?_, rfl, rfl, rfl,
      rfl⟩
    · intro h
      have h1 : p.snippets = p.snippets ++ [make_snippet hook d c r] := h.1
      exact absurd h1.symm (append_singleton_ne_self _ _)
    · simp only [cogl_pipeline_add_layer_snippet, List.length_append, List.length_singleton]
      omega

/-- C6 at a concrete input: a layer-fragment hook on the sample state lands
on layer 0 of the shared base pipeline. -/
theorem add_glsl_snippet_attach_point_witness :
    ∃ p' s, shell_glsl_quad_add_glsl_snippet demo_hooks demo_world 0 6144 none (some "x")
        false = .ok (store demo_world 0 p') ∧
      deref (store demo_world 0 p') 0 = .ok p' ∧
      (((6144 : Int) = demo_hooks.SHELL_SNIPPET_HOOK_VERTEX ∨
          (6144 : Int) = demo_hooks.SHELL_SNIPPET_HOOK_FRAGMENT) ↔
        (p'.snippets = demo_base.snippets ++ [s] ∧
          p'.layer_snippets = demo_base.layer_snippets)) ∧
      (¬ ((6144 : Int) = demo_hooks.SHELL_SNIPPET_HOOK_VERTEX ∨
          (6144 : Int) = demo_hooks.SHELL_SNIPPET_HOOK_FRAGMENT) ↔
        (p'.snippets = demo_base.snippets ∧
          p'.layer_snippets = demo_base.layer_snippets ++ [(0, s)])) ∧
      p'.snippets.length + p'.layer_snippets.length =
        demo_base.snippets.length + demo_base.layer_snippets.length + 1 ∧
      p'.blend = demo_base.blend ∧ p'.color = demo_base.color ∧
      p'.null_texture_layers = demo_base.null_texture_layers ∧
      p'.uniforms = demo_base.uniforms :=
  add_glsl_snippet_attach_point demo_hooks demo_world 0 0 ⟨some 0, some demo_body⟩ demo_base
    6144 none (some "x") false rfl rfl rfl

/-- C7: a call that passes the precondition adds exactly the snippet built
from its arguments: with `is_replace` set it has hook `h`, declarations `d`,
no post code and replace code `c`; with `is_replace` clear it has hook `h`,
declarations `d`, post code `c` and no replace code. -/
theorem add_glsl_snippet_contents (H : ShellSnippetHookValues) (w : World)
    (quad bp : Nat) (k : ShellGLSLQuadClass) (p : CoglPipeline) (h : Int)
    (d c : Option String) (r : Bool)
    (hk : get_class w quad = .ok k) (hb : k.base_pipeline = some bp)
    (hp : deref w bp = .ok p) :
    ∃ p', shell_glsl_quad_add_glsl_snippet H w quad h d c r = .ok (store w bp p') ∧
      ((p'.snippets = p.snippets ++ [if r then ⟨h, d, none, c⟩ else ⟨h, d, c, none⟩] ∧
          p'.layer_snippets = p.layer_snippets) ∨
        (p'.snippets = p.snippets ∧
          p'.layer_snippets = p.layer_snippets ++
            [(0, if r then ⟨h, d, none, c⟩ else ⟨h, d, c, none⟩)])) := by
  refine ⟨attach_snippet H p h (make_snippet h d c r),
    add_glsl_snippet_ok hk hb hp h d c r, ?_⟩
  have hs : make_snippet h d c r = if r then ⟨h, d, none, c⟩ else ⟨h, d, c, none⟩ := by
    cases r <;> rfl
  rw [hs]
  by_cases hh : h = H.SHELL_SNIPPET_HOOK_VERTEX ∨ h = H.SHELL_SNIPPET_HOOK_FRAGMENT
  · left
    simp only [attach_snippet, if_pos hh, cogl_pipeline_add_snippet, and_self]
  · right
    simp only [attach_snippet, if_neg hh, cogl_pipeline_add_layer_snippet, and_self]

/-- C7 at a concrete input: a replacing fragment snippet on the sample state. -/
theorem add_glsl_snippet_contents_witness :
    ∃ p', shell_glsl_quad_add_glsl_snippet demo_hooks demo_world 1 2048 (some "d")
        (some "c") true = .ok (store demo_world 0 p') ∧
      ((p'.snippets = demo_base.snippets ++
            [if true then ⟨2048, some "d", none, some "c"⟩
              else ⟨2048, some "d", some "c", none⟩] ∧
          p'.layer_snippets = demo_base.layer_snippets) ∨
        (p'.snippets = demo_base.snippets ∧
          p'.layer_snippets = demo_base.layer_snippets ++
            [(0, if true then ⟨2048, some "d", none, some "c"⟩
              else ⟨2048, some "d", some "c", none⟩)])) :=
  add_glsl_snippet_contents demo_hooks demo_world 1 0 ⟨some 0, some demo_body⟩ demo_base
    2048 (some "d") (some "c") true rfl rfl rfl

/-- Every call of a `build_pipeline` body attaches one snippet. -/
theorem apply_calls_count (H : ShellSnippetHookValues) (body : List SnippetCall) :
    ∀ p : CoglPipeline,
      (apply_calls H body p).snippets.length + (apply_calls H body p).layer_snippets.length =
        p.snippets.length + p.layer_snippets.length + body.length := by
  induction body with
  | nil => intro p; simp [apply_calls]
  | cons c cs ih =>
    intro p
    have e : apply_calls H (c :: cs) p = apply_calls H cs
        (attach_snippet H p c.hook (make_snippet c.hook c.declarations c.code c.is_replace)) :=
      rfl
    rw [e, ih]
    by_cases hh : c.hook = H.SHELL_SNIPPET_HOOK_VERTEX ∨ c.hook = H.SHELL_SNIPPET_HOOK_FRAGMENT
    · rw [attach_snippet, if_pos hh]
      simp only [cogl_pipeline_add_snippet, List.length_append, List.length_cons,
        List.length_nil]
      omega
    · rw [attach_snippet, if_neg hh]
      simp only [cogl_pipeline_add_layer_snippet, List.length_append, List.length_cons,
        List.length_nil]
      omega

theorem critical_count_append (l1 l2 : List Event) :
    critical_count (l1 ++ l2) = critical_count l1 + critical_count l2 := by
  simp [critical_count]

theorem build_count_append (klass : Nat) (l1 l2 : List Event) :
    build_count klass (l1 ++ l2) = build_count klass l1 + build_count klass l2 := by
  simp [build_count]

/-- C9: when the class base pipeline is `NULL`, the call fails its
precondition check and returns with no effect but the diagnostic: heap,
classes and instances are unchanged, so no snippet is attached.  Conversely,
when an instance of a class with an unset base pipeline and a
`build_pipeline` body is constructed, the construction succeeds, the base
pipeline is allocated, the log gains the hook invocation and no diagnostic,
and the base pipeline holds one snippet for every call of the body: every
call inside the hook passed the check. -/
theorem add_glsl_snippet_precondition (H : ShellSnippetHookValues) (w : World) (quad : Nat)
    (k : ShellGLSLQuadClass) (hook : Int) (d c : Option String) (r : Bool)
    (w0 : World) (klass : Nat) (k0 : ShellGLSLQuadClass) (body : List SnippetCall)
    (hk : get_class w quad = .ok k) (hb : k.base_pipeline = none)
    (hk0 : w0.classes[klass]? = some k0) (hb0 : k0.base_pipeline = none)
    (hbody : k0.build_pipeline = some body) :
    (∃ w', shell_glsl_quad_add_glsl_snippet H w quad hook d c r = .ok w' ∧
      w'.heap = w.heap ∧ w'.classes = w.classes ∧ w'.instances = w.instances ∧
      w'.log = w.log ++ [.critical "klass->base_pipeline != NULL"] ∧
      critical_count w'.log = critical_count w.log + 1) ∧
    (∃ w1 base, g_object_new H w0 klass = .ok w1 ∧
      w1.classes[klass]? = some ⟨some w0.heap.length, some body⟩ ∧
      deref w1 w0.heap.length = .ok base ∧
      w1.log = w0.log ++ [.build_pipeline klass w0.instances.length] ∧
      critical_count w1.log = critical_count w0.log ∧
      base.snippets.length + base.layer_snippets.length = body.length) := by
  constructor
  · refine ⟨_, add_glsl_snippet_null hk hb hook d c r, rfl, rfl, rfl, rfl, ?_⟩
    rw [emit_log, critical_count_append]
    rfl
  · refine ⟨_, apply_calls H body blank_base, g_object_new_build hk0 hb0, ?_, ?_, ?_, ?_, ?_⟩
    · simp only [hbody]
      exact List.getElem?_set_self (getElem?_lt_of_some hk0)
    · apply deref_eq_ok.mpr
      refine ⟨_, getElem?_append_two_fst _ _ _, by simp, ?_⟩
      simp only [hbody, Option.getD_some]
    · simp only [hbody]
    · simp only [hbody]
      rw [critical_count_append]
      rfl
    · rw [apply_calls_count]
      simp [blank_base, cogl_pipeline_set_blend, cogl_pipeline_new]

/-- C9 at concrete inputs: a call on an instance whose class has no base
pipeline, and the first construction of the sample subtype. -/
theorem add_glsl_snippet_precondition_witness :
    (∃ w', shell_glsl_quad_add_glsl_snippet demo_hooks
        ⟨[], [⟨none, none⟩], [fresh_instance 0 none], []⟩ 0 0 none (some "x") false = .ok w' ∧
      w'.heap = [] ∧ w'.classes = [⟨none, none⟩] ∧ w'.instances = [fresh_instance 0 none] ∧
      w'.log = [] ++ [.critical "klass->base_pipeline != NULL"] ∧
      critical_count w'.log = critical_count [] + 1) ∧
    (∃ w1 base, g_object_new demo_hooks ⟨[], [⟨none, some demo_body⟩], [], []⟩ 0 = .ok w1 ∧
      w1.classes[0]? = some ⟨some 0, some demo_body⟩ ∧
      deref w1 0 = .ok base ∧
      w1.log = [] ++ [.build_pipeline 0 0] ∧
      critical_count w1.log = critical_count [] ∧
      base.snippets.length + base.layer_snippets.length = demo_body.length) :=
  add_glsl_snippet_precondition demo_hooks ⟨[], [⟨none, none⟩], [fresh_instance 0 none], []⟩ 0
    ⟨none, none⟩ 0 none (some "x") false ⟨[], [⟨none, some demo_body⟩], [], []⟩ 0
    ⟨none, some demo_body⟩ demo_body rfl rfl rfl rfl rfl

theorem Built_init : Built World.init := by
  intro q s k h
  simp [World.init] at h

/-- A state change that keeps the classes and the class of every instance
keeps `Built`. -/
theorem Built_frame {w w' : World} (hb : Built w) (hc : w'.classes = w.classes)
    (hi : ∀ (q : Nat) (s' : ShellGLSLQuad), w'.instances[q]? = some s' →
      ∃ s, w.instances[q]? = some s ∧ s.klass = s'.klass) : Built w' := by
  intro q s' k h1 h2
  obtain ⟨s, hs, hk⟩ := hi q s' h1
  rw [hc, ← hk] at h2
  exact hb q s k hs h2

theorem Built_step {H : ShellSnippetHookValues} {w w' : World} {op : Op} (hwf : WF w)
    (hb : Built w) (h : step H w op = .ok w') : Built w' := by
  cases op with
  | class_init parent bp =>
    have key : ∀ x : ShellGLSLQuadClass, Built { w with classes := w.classes ++ [x] } := by
      intro x q s k h1 h2
      have hlt := hwf.inst_class q s h1
      simp only at h2
      rw [List.getElem?_append_left hlt] at h2
      exact hb q s k h1 h2
    simp only [step, class_init] at h
    cases parent with
    | none =>
      simp only [Except.ok.injEq] at h
      subst h
      exact key _
    | some c =>
      simp only at h
      cases hc : w.classes[c]? with
      | none => rw [hc] at h; cases h
      | some kc =>
        rw [hc] at h
        simp only [Except.ok.injEq] at h
        subst h
        exact key _
  | g_object_new c =>
    have h' : g_object_new H w c = .ok w' := h
    have hlt : c < w.classes.length := by
      unfold g_object_new at h'
      by_contra hc
      rw [if_neg hc] at h'
      cases h'
    have hkc : w.classes[c]? = some w.classes[c] := List.getElem?_eq_getElem hlt
    cases hbase : (w.classes[c]).base_pipeline with
    | some bp =>
      obtain ⟨base, hd⟩ := deref_of_live (hwf.class_live c _ bp hkc hbase)
      rw [g_object_new_cached hkc hbase hd] at h'
      have e := (Except.ok.inj h').symm
      subst e
      intro q s k h1 h2
      rcases getElem?_concat_eq_some h1 with h3 | ⟨_, rfl⟩
      · exact hb q s k h3 h2
      · have h4 : w.classes[c]? = some k := h2
        rw [hkc] at h4
        rw [← Option.some.inj h4, hbase]
        simp
    | none =>
      rw [g_object_new_build hkc hbase] at h'
      have e := (Except.ok.inj h').symm
      subst e
      have hset : ∀ (j : Nat) (k : ShellGLSLQuadClass),
          (w.classes.set c ⟨some w.heap.length, (w.classes[c]).build_pipeline⟩)[j]? = some k →
          (j = c ∧ k.base_pipeline ≠ none) ∨ (j ≠ c ∧ w.classes[j]? = some k) := by
        intro j k hj
        rcases getElem?_set_eq_some hj with ⟨e1, e2⟩ | h5
        · exact Or.inl ⟨e1, by rw [← e2]; simp⟩
        · exact Or.inr h5
      intro q s k h1 h2
      rcases hset _ k h2 with ⟨_, h3⟩ | ⟨_, h3⟩
      · exact h3
      · rcases getElem?_concat_eq_some h1 with h4 | ⟨_, rfl⟩
        · exact hb q s k h4 h3
        · rename_i hne
          exact absurd rfl hne
  | host_update actor opacity box =>
    simp only [step, host_update] at h
    cases hi : get_instance w actor with
    | error f => rw [hi] at h; cases h
    | ok self =>
      rw [hi] at h
      simp only [Except.ok.injEq] at h
      subst h
      refine Built_frame hb rfl ?_
      intro q s' hq
      rcases getElem?_set_eq_some hq with ⟨rfl, rfl⟩ | ⟨_, h2⟩
      · exact ⟨self, get_instance_ok.mp hi, rfl⟩
      · exact ⟨s', h2, rfl⟩
  | paint actor =>
    have h' : shell_glsl_quad_paint w actor = .ok w' := h
    obtain ⟨self, a, p, hi, ha, hp⟩ := paint_inv h'
    rw [paint_ok hi ha hp] at h'
    have e := (Except.ok.inj h').symm
    subst e
    exact Built_frame hb (by simp) (fun q s' hq => ⟨s', by simpa using hq, rfl⟩)
  | add_glsl_snippet quad c =>
    obtain ⟨kq, _, h1 | ⟨bp, p, _, _, h2⟩⟩ := add_glsl_snippet_inv h
    · have e := h1.2
      subst e
      exact Built_frame hb rfl (fun q s' hq => ⟨s', hq, rfl⟩)
    · subst h2
      exact Built_frame hb (by simp) (fun q s' hq => ⟨s', by simpa using hq, rfl⟩)
  | set_uniform_float quad u n t v =>
    obtain ⟨self, a, p, count, p1, _, _, _, _, _, hw⟩ := set_uniform_float_inv h
    subst hw
    exact Built_frame hb (by simp) (fun q s' hq => ⟨s', by simpa using hq, rfl⟩)
  | dispose gobject =>
    simp only [step, shell_glsl_quad_dispose] at h
    cases hi : get_instance w gobject with
    | error f => rw [hi] at h; cases h
    | ok self =>
      rw [hi] at h
      simp only at h
      cases ha : self.priv.pipeline with
      | none =>
        rw [ha] at h
        simp only [Except.ok.injEq] at h
        subst h
        exact hb
      | some a =>
        rw [ha] at h
        simp only [cogl_object_unref] at h
        cases ho : w.heap[a]? with
        | none => rw [ho] at h; cases h
        | some o =>
          rw [ho] at h
          simp only at h
          by_cases hr : o.ref_count = 0
          · rw [if_pos hr] at h; cases h
          · rw [if_neg hr] at h
            simp only [Except.ok.injEq] at h
            subst h
            refine Built_frame hb rfl ?_
            intro q s' hq
            rcases getElem?_set_eq_some hq with ⟨rfl, rfl⟩ | ⟨_, h2⟩
            · exact ⟨self, get_instance_ok.mp hi, rfl⟩
            · exact ⟨s', h2, rfl⟩

theorem Built_run {H : ShellSnippetHookValues} (ops : List Op) :
    ∀ {w w' : World}, WF w → Built w → run H ops w = .ok w' → Built w' := by
  induction ops with
  | nil =>
    intro w w' _ hb h
    rw [← Except.ok.inj h]
    exact hb
  | cons op ops ih =>
    intro w w' hwf hb h
    simp only [run] at h
    cases hs : step H w op with
    | error f => rw [hs] at h; cases h
    | ok w1 =>
      rw [hs] at h
      exact ih (WF_step hwf hs) (Built_step hwf hb hs) h

/-- In a reachable state every instance has been constructed, so the class
of every instance has its base pipeline set. -/
theorem Built_of_reachable {H : ShellSnippetHookValues} {w : World} (h : Reachable H w) :
    Built w := by
  obtain ⟨ops, hops⟩ := h
  exact Built_run ops WF_init Built_init hops

/-- Attaching a snippet changes the pipeline. -/
theorem attach_snippet_ne (H : ShellSnippetHookValues) (p : CoglPipeline) (hook : Int)
    (s : CoglSnippet) : attach_snippet H p hook s ≠ p := by
  intro h
  by_cases hh : hook = H.SHELL_SNIPPET_HOOK_VERTEX ∨ hook = H.SHELL_SNIPPET_HOOK_FRAGMENT
  · rw [attach_snippet, if_pos hh] at h
    have := congrArg CoglPipeline.snippets h
    exact append_singleton_ne_self _ _ this
  · rw [attach_snippet, if_neg hh] at h
    have := congrArg CoglPipeline.layer_snippets h
    exact append_singleton_ne_self _ _ this

/-- C2, the statement that fails: in the sample state the template is built
and both instances are constructed; a call made then, outside any
`build_pipeline` invocation, returns without a diagnostic and the shared
base pipeline has gained a snippet. -/
theorem add_glsl_snippet_outside_hook_counterexample :
    run demo_hooks demo_ops World.init = .ok demo_world ∧
    ∃ w', shell_glsl_quad_add_glsl_snippet demo_hooks demo_world 0 0 none (some "late")
        false = .ok w' ∧
      critical_count w'.log = 0 ∧
      deref demo_world 0 = .ok demo_base ∧
      deref w' 0 = .ok { demo_base with
        snippets := demo_base.snippets ++ [⟨0, none, some "late", none⟩] } :=
  ⟨rfl, _, rfl, rfl, rfl, rfl⟩

/-- C2, amended: a call on an instance whose class structure is `k`, with a
live base pipeline when one is set, returns and leaves classes and instances
as they are.  It fails with the precondition diagnostic and adds no snippet,
the heap being unchanged, exactly when `k.base_pipeline` is `NULL`.  When the
base pipeline is set the call emits no diagnostic and the shared base
pipeline changes: it becomes the old one with the snippet attached.  In a
reachable state, where every instance has been constructed, the base
pipeline is always set, so there the call never fails. -/
theorem add_glsl_snippet_outside_hook (H : ShellSnippetHookValues) (w : World) (quad : Nat)
    (k : ShellGLSLQuadClass) (hook : Int) (d c : Option String) (r : Bool)
    (hk : get_class w quad = .ok k)
    (hlive : ∀ bp, k.base_pipeline = some bp → live w bp) :
    ∃ w', shell_glsl_quad_add_glsl_snippet H w quad hook d c r = .ok w' ∧
      w'.classes = w.classes ∧ w'.instances = w.instances ∧
      (k.base_pipeline = none →
        w'.heap = w.heap ∧ w'.log = w.log ++ [.critical "klass->base_pipeline != NULL"]) ∧
      (∀ bp, k.base_pipeline = some bp → ∃ p, deref w bp = .ok p ∧ w'.log = w.log ∧
        deref w' bp = .ok (attach_snippet H p hook (make_snippet hook d c r)) ∧
        deref w' bp ≠ deref w bp) ∧
      (critical_count w'.log = critical_count w.log + 1 ↔ k.base_pipeline = none) ∧
      (w'.heap = w.heap ↔ k.base_pipeline = none) ∧
      (Reachable H w → k.base_pipeline ≠ none) := by
  have hreach : Reachable H w → k.base_pipeline ≠ none := by
    intro hr
    obtain ⟨s, hs, hks⟩ := get_class_ok.mp hk
    exact Built_of_reachable hr quad s k hs hks
  cases hb : k.base_pipeline with
  | none =>
    refine ⟨_, add_glsl_snippet_null hk hb hook d c r, rfl, rfl, ?_, ?_, ?_, ?_, ?_⟩
    · intro _; exact ⟨rfl, rfl⟩
    · intro bp h; cases h
    · rw [emit_log, critical_count_append]
      simp [critical_count]
    · simp
    · intro hr; exact absurd hb (hreach hr)
  | some bp =>
    obtain ⟨p, hp⟩ := deref_of_live (hlive bp hb)
    have hnew : deref (store w bp (attach_snippet H p hook (make_snippet hook d c r))) bp =
        .ok (attach_snippet H p hook (make_snippet hook d c r)) :=
      deref_store_self _ (live_of_deref hp)
    have hne : deref (store w bp (attach_snippet H p hook (make_snippet hook d c r))) bp ≠
        deref w bp := by
      rw [hnew, hp]
      intro e
      exact attach_snippet_ne H p hook _ (Except.ok.inj e)
    refine ⟨_, add_glsl_snippet_ok hk hb hp hook d c r, store_classes _ _ _,
      store_instances _ _ _, ?_, ?_, ?_, ?_, ?_⟩
    · intro h; cases h
    · intro bp' h
      cases h
      exact ⟨p, hp, store_log _ _ _, hnew, hne⟩
    · rw [store_log]
      simp
    · constructor
      · intro e
        exfalso
        apply hne
        unfold deref
        rw [e]
      · intro h; cases h
    · intro _ h; cases h

/-- C2 amended, at concrete inputs: on the early sample state, whose class
has no base pipeline, the call only logs the diagnostic; on the sample state
with the template built, the late call logs nothing and the shared base
pipeline gains the snippet. -/
theorem add_glsl_snippet_outside_hook_witness :
    (∃ w', shell_glsl_quad_add_glsl_snippet demo_hooks demo_world_early 0 0 none
        (some "early") false = .ok w' ∧
      w'.heap = demo_world_early.heap ∧
      w'.log = demo_world_early.log ++ [.critical "klass->base_pipeline != NULL"] ∧
      critical_count w'.log = critical_count demo_world_early.log + 1) ∧
    (∃ w', shell_glsl_quad_add_glsl_snippet demo_hooks demo_world 0 0 none (some "late")
        false = .ok w' ∧
      w'.log = demo_world.log ∧
      deref w' 0 = .ok (attach_snippet demo_hooks demo_base 0
        (make_snippet 0 none (some "late") false)) ∧
      deref w' 0 ≠ deref demo_world 0 ∧
      w'.heap ≠ demo_world.heap) := by
  constructor
  · obtain ⟨w', h1, _, _, h4, _, h6, _⟩ := add_glsl_snippet_outside_hook demo_hooks
      demo_world_early 0 ⟨none, some demo_body⟩ 0 none (some "early") false rfl
      (fun bp h => by cases h)
    exact ⟨w', h1, (h4 rfl).1, (h4 rfl).2, h6.mpr rfl⟩
  · obtain ⟨w', h1, _, _, _, h5, _, h7, _⟩ := add_glsl_snippet_outside_hook demo_hooks
      demo_world 0 ⟨some 0, some demo_body⟩ 0 none (some "late") false rfl
      (fun bp h => by
        cases h
        exact ⟨⟨1, demo_base⟩, rfl, by decide⟩)
    obtain ⟨p, hp, h8, h9, h10⟩ := h5 0 rfl
    have e : p = demo_base := by
      have h0 : deref demo_world 0 = .ok demo_base := rfl
      rw [h0] at hp
      exact (Except.ok.inj hp).symm
    subst e
    refine ⟨w', h1, h8, h9, h10, ?_⟩
    intro e
    have := h7.mp e
    cases this

/-! ## Paint and the frame of instance operations -/

/-- C3: in a reachable state, painting a constructed instance with paint
opacity `o` in 0..255 and allocation `(x1, y1, x2, y2)` succeeds; the pipeline
of the instance becomes the old one with colour `(o, o, o, o)`; the log
gains exactly one event, a rectangle draw with that pipeline and the
coordinates of the box; classes and instances are unchanged, every other
heap cell is unchanged, and in particular every class base pipeline and the
pipeline of every other instance is unchanged. -/
theorem paint_colour_and_draw (H : ShellSnippetHookValues) (w : World) (actor a : Nat)
    (self : ShellGLSLQuad) (hr : Reachable H w) (hi : w.instances[actor]? = some self)
    (ha : self.priv.pipeline = some a) (ho : self.paint_opacity ≤ 255) :
    ∃ p w', deref w a = .ok p ∧ shell_glsl_quad_paint w actor = .ok w' ∧
      deref w' a = .ok { p with color :=
        (self.paint_opacity, self.paint_opacity, self.paint_opacity, self.paint_opacity) } ∧
      w'.log = w.log ++ [.draw_rectangle a
        { p with color :=
          (self.paint_opacity, self.paint_opacity, self.paint_opacity, self.paint_opacity) }
        self.allocation.x1 self.allocation.y1 self.allocation.x2 self.allocation.y2] ∧
      w'.classes = w.classes ∧ w'.instances = w.instances ∧
      w'.heap.length = w.heap.length ∧
      (∀ b, b ≠ a → w'.heap[b]? = w.heap[b]?) ∧
      (∀ (c : Nat) (k : ShellGLSLQuadClass) (bp : Nat), w.classes[c]? = some k →
        k.base_pipeline = some bp → w'.heap[bp]? = w.heap[bp]?) ∧
      (∀ (q : Nat) (s : ShellGLSLQuad) (b : Nat), q ≠ actor → w.instances[q]? = some s →
        s.priv.pipeline = some b → w'.heap[b]? = w.heap[b]?) := by
  have hwf := WF_of_reachable hr
  obtain ⟨p, hp⟩ := deref_of_live (hwf.inst_live actor self a hi ha)
  have hmod : self.paint_opacity % 256 = self.paint_opacity := Nat.mod_eq_of_lt (by omega)
  have hpaint := paint_ok hi ha hp
  rw [hmod] at hpaint
  refine ⟨p, _, hp, hpaint, ?_, ?_, ?_, ?_, ?_, ?_, ?_, ?_⟩
  · exact deref_store_self _ (live_of_deref hp)
  · rw [emit_log, store_log]
    rfl
  · simp
  · simp
  · simp
  · intro b hb
    exact store_heap_ne w _ hb
  · intro c k bp h1 h2
    refine store_heap_ne w _ ?_
    intro e
    subst e
    exact hwf.inst_ne_class actor self bp c k hi ha h1 h2
  · intro q s b hq h1 h2
    refine store_heap_ne w _ ?_
    intro e
    subst e
    exact hq (hwf.inst_inj q actor s self b h1 hi h2 ha)

theorem demo_dim_reachable : Reachable demo_hooks demo_world_dim :=
  ⟨demo_ops ++ [Op.host_update 0 0 ⟨1, 2, 30, 40⟩], rfl⟩

/-- C3 at concrete inputs: opacity 0 gives colour `(0, 0, 0, 0)` and one
draw call over the box. -/
theorem paint_colour_and_draw_witness :
    ∃ w', shell_glsl_quad_paint demo_world_dim 0 = .ok w' ∧
      deref w' 1 = .ok { demo_copy with color := (0, 0, 0, 0) } ∧
      w'.log = demo_world_dim.log ++
        [.draw_rectangle 1 { demo_copy with color := (0, 0, 0, 0) } 1 2 30 40] := by
  obtain ⟨p, w', hp, h1, h2, h3, _⟩ := paint_colour_and_draw demo_hooks demo_world_dim 0 1
    ⟨0, 0, ⟨1, 2, 30, 40⟩, ⟨some 1⟩⟩ demo_dim_reachable rfl rfl (by decide)
  have e : p = demo_copy := by
    have h0 : deref demo_world_dim 1 = .ok demo_copy := rfl
    rw [h0] at hp
    exact (Except.ok.inj hp).symm
  subst e
  exact ⟨w', h1, h2, h3⟩

/-- With a positive component size and a buffer of `total_count >= 0` floats
the upload succeeds. -/
theorem set_uniform_float_pos {w : World} {quad a : Nat} {self : ShellGLSLQuad}
    {p : CoglPipeline} {n t : Int} {v : List gfloat}
    (hi : w.instances[quad]? = some self) (ha : self.priv.pipeline = some a)
    (hp : deref w a = .ok p) (u : Int) (hn : 0 < n) (ht : 0 ≤ t) (hv : (v.length : Int) = t) :
    shell_glsl_quad_set_uniform_float w quad u n t v =
      .ok (store w a { p with uniforms := p.uniforms ++
        [⟨u, n, Int.tdiv t n, v.take (Int.tdiv t n * n).toNat⟩] }) := by
  obtain ⟨h1, h2, _, _, _⟩ := tdiv_bounds hn ht
  have hd0 : 0 ≤ Int.tdiv t n * n := Int.mul_nonneg h1 (Int.le_of_lt hn)
  have hle : (Int.tdiv t n * n).toNat ≤ v.length := by omega
  have hread : read_floats n (Int.tdiv t n) v =
      .ok (v.take (Int.tdiv t n * n).toNat) := by
    unfold read_floats
    rw [if_pos hle]
  exact set_uniform_float_ok hi ha hp (c_int_div_pos t hn) hread

/-- C5: in a reachable state, for two distinct constructed instances `A`
and `B`, `shell_glsl_quad_paint` on `A` always succeeds,
`shell_glsl_quad_set_uniform_float` on `A` succeeds for `n_components > 0`
and a buffer of `total_count >= 0` floats, and whenever either call
succeeds the two pipelines are different cells, `B`'s pipeline cell and
every class base pipeline cell are the same before and after, and classes
and instances are unchanged. -/
theorem sibling_and_template_untouched (H : ShellSnippetHookValues) (w : World)
    (A B a b : Nat) (sa sb : ShellGLSLQuad) (hr : Reachable H w)
    (hA : w.instances[A]? = some sa) (hB : w.instances[B]? = some sb) (hAB : A ≠ B)
    (ha : sa.priv.pipeline = some a) (hb : sb.priv.pipeline = some b) :
    a ≠ b ∧
    (∃ w', shell_glsl_quad_paint w A = .ok w') ∧
    (∀ (u n t : Int) (v : List gfloat), 0 < n → 0 ≤ t → (v.length : Int) = t →
      ∃ w', shell_glsl_quad_set_uniform_float w A u n t v = .ok w') ∧
    (∀ w', (shell_glsl_quad_paint w A = .ok w' ∨
        ∃ (u n t : Int) (v : List gfloat),
          shell_glsl_quad_set_uniform_float w A u n t v = .ok w') →
      w'.heap[b]? = w.heap[b]? ∧ deref w' b = deref w b ∧
      (∀ (c : Nat) (k : ShellGLSLQuadClass) (bp : Nat), w.classes[c]? = some k →
        k.base_pipeline = some bp → w'.heap[bp]? = w.heap[bp]? ∧ deref w' bp = deref w bp) ∧
      w'.classes = w.classes ∧ w'.instances = w.instances) := by
  have hwf := WF_of_reachable hr
  have hne : a ≠ b := by
    intro e
    subst e
    exact hAB (hwf.inst_inj A B sa sb a hA hB ha hb)
  obtain ⟨p, hp⟩ := deref_of_live (hwf.inst_live A sa a hA ha)
  have hbase : ∀ (c : Nat) (k : ShellGLSLQuadClass) (bp : Nat), w.classes[c]? = some k →
      k.base_pipeline = some bp → bp ≠ a := by
    intro c k bp h1 h2 e
    subst e
    exact hwf.inst_ne_class A sa bp c k hA ha h1 h2
  have hstore : ∀ (w' : World) (p1 : CoglPipeline), w' = store w a p1 →
      w'.heap[b]? = w.heap[b]? ∧ deref w' b = deref w b ∧
      (∀ (c : Nat) (k : ShellGLSLQuadClass) (bp : Nat), w.classes[c]? = some k →
        k.base_pipeline = some bp → w'.heap[bp]? = w.heap[bp]? ∧ deref w' bp = deref w bp) ∧
      w'.classes = w.classes ∧ w'.instances = w.instances := by
    intro w' p1 e
    subst e
    refine ⟨store_heap_ne w _ (Ne.symm hne), deref_store_ne w _ (Ne.symm hne), ?_,
      store_classes _ _ _, store_instances _ _ _⟩
    intro c k bp h1 h2
    exact ⟨store_heap_ne w _ (hbase c k bp h1 h2), deref_store_ne w _ (hbase c k bp h1 h2)⟩
  refine ⟨hne, ⟨_, paint_ok hA ha hp⟩, ?_, ?_⟩
  · intro u n t v hn ht hv
    exact ⟨_, set_uniform_float_pos hA ha hp u hn ht hv⟩
  · intro w' h
    rcases h with h | ⟨u, n, t, v, h⟩
    · rw [paint_ok hA ha hp] at h
      have e := (Except.ok.inj h).symm
      have := hstore (store w a (cogl_pipeline_set_color4ub p (sa.paint_opacity % 256)
        (sa.paint_opacity % 256) (sa.paint_opacity % 256) (sa.paint_opacity % 256))) _ rfl
      rw [e]
      exact this
    · obtain ⟨self, a', p', count, p1, h1, h2, _, _, _, h6⟩ := set_uniform_float_inv h
      rw [hA] at h1
      cases h1
      rw [ha] at h2
      cases h2
      exact hstore w' p1 h6

/-- C5 at concrete inputs: a uniform upload on instance 0 of the sample
state leaves the pipeline of instance 1 and the base pipeline as they were. -/
theorem sibling_and_template_untouched_witness :
    ∃ w', shell_glsl_quad_set_uniform_float demo_world 0 7 2 4 [10, 20, 30, 40] = .ok w' ∧
      deref w' 2 = .ok demo_copy ∧ deref w' 0 = .ok demo_base := by
  have h := sibling_and_template_untouched demo_hooks demo_world 0 1 1 2
    (fresh_instance 0 (some 1)) (fresh_instance 0 (some 2)) demo_reachable rfl rfl
    (by decide) rfl rfl
  obtain ⟨w', hw⟩ := h.2.2.1 7 2 4 [10, 20, 30, 40] (by decide) (by decide) (by decide)
  have hf := h.2.2.2 w' (Or.inr ⟨7, 2, 4, _, hw⟩)
  refine ⟨w', hw, ?_, ?_⟩
  · rw [hf.2.1]; rfl
  · rw [(hf.2.2.1 0 ⟨some 0, some demo_body⟩ 0 rfl rfl).2]; rfl

/-! ## Construction -/

/-- A successful use of an instance keeps classes and instances and keeps
live cells alive. -/
theorem use_frame {lookup : CoglPipeline → String → Int} {w w' : World} {quad : Nat}
    {u : Use} (h : use lookup w quad u = .ok w') :
    w'.classes = w.classes ∧ w'.instances = w.instances ∧ ∀ a, live w a → live w' a := by
  cases u with
  | paint =>
    obtain ⟨self, a, p, hi, ha, hp⟩ := paint_inv h
    have h' : shell_glsl_quad_paint w quad = .ok w' := h
    rw [paint_ok hi ha hp] at h'
    rw [← Except.ok.inj h']
    exact ⟨by simp, by simp, fun b hb => (live_store w a b _).mpr hb⟩
  | get_uniform_location name =>
    simp only [use] at h
    unfold shell_glsl_quad_get_uniform_location at h
    cases hi : get_instance w quad with
    | error f => rw [hi] at h; cases h
    | ok self =>
      rw [hi] at h
      simp only at h
      cases ha : self.priv.pipeline with
      | none => rw [ha] at h; cases h
      | some a =>
        rw [ha] at h
        simp only at h
        cases hp : deref w a with
        | error f => rw [hp] at h; cases h
        | ok p =>
          rw [hp] at h
          simp only [Except.ok.injEq] at h
          rw [← h]
          exact ⟨rfl, rfl, fun _ hb => hb⟩
  | set_uniform_float un n t v =>
    obtain ⟨self, a, p, count, p1, _, _, _, _, _, hw⟩ := set_uniform_float_inv h
    rw [hw]
    exact ⟨by simp, by simp, fun b hb => (live_store w a b _).mpr hb⟩

theorem use_many_frame {lookup : CoglPipeline → String → Int} (us : List (Nat × Use)) :
    ∀ {w w' : World}, use_many lookup us w = .ok w' →
      w'.classes = w.classes ∧ w'.instances = w.instances ∧ ∀ a, live w a → live w' a := by
  induction us with
  | nil =>
    intro w w' h
    rw [← Except.ok.inj h]
    exact ⟨rfl, rfl, fun _ hb => hb⟩
  | cons u us ih =>
    intro w w' h
    simp only [use_many] at h
    cases hs : use lookup w u.1 u.2 with
    | error f => rw [hs] at h; cases h
    | ok w1 =>
      rw [hs] at h
      obtain ⟨h1, h2, h3⟩ := use_frame hs
      obtain ⟨h4, h5, h6⟩ := ih h
      exact ⟨h4.trans h1, h5.trans h2, fun a ha => h6 a (h3 a ha)⟩

/-- C8: in a reachable state, constructing an instance of an existing class
succeeds; the new instance has a non-`NULL` private pipeline `a`; the class
has a base pipeline `bp` holding `base`, and `a` holds `base` with the
texture of layer 0 set to null.  If the class base pipeline was unset,
`base` is the freshly allocated pipeline with the blend string and every
snippet of the `build_pipeline` body; if it was already set, `bp` and `base`
are what they were.  Paint and uniform lookup succeed on the new instance,
and after any successful sequence of paints, uniform lookups and uniform
uploads on any instances the private pipeline is still `a`, and live. -/
theorem constructed_instance_pipeline (H : ShellSnippetHookValues)
    (lookup : CoglPipeline → String → Int) (w : World) (klass : Nat) (k : ShellGLSLQuadClass)
    (hr : Reachable H w) (hk : w.classes[klass]? = some k) :
    ∃ w1 a bp base,
      g_object_new H w klass = .ok w1 ∧
      w1.instances[w.instances.length]? = some (fresh_instance klass (some a)) ∧
      w1.classes[klass]? = some ⟨some bp, k.build_pipeline⟩ ∧
      deref w1 bp = .ok base ∧
      deref w1 a = .ok (cogl_pipeline_set_layer_null_texture base 0) ∧
      (k.base_pipeline = none →
        base = apply_calls H (k.build_pipeline.getD []) blank_base) ∧
      (∀ bp0, k.base_pipeline = some bp0 → bp = bp0 ∧ deref w bp0 = .ok base) ∧
      (∃ w2, shell_glsl_quad_paint w1 w.instances.length = .ok w2) ∧
      (∀ name, ∃ r, shell_glsl_quad_get_uniform_location lookup w1 w.instances.length name
        = .ok r) ∧
      (∀ (us : List (Nat × Use)) (w2 : World), use_many lookup us w1 = .ok w2 →
        w2.instances[w.instances.length]? = some (fresh_instance klass (some a)) ∧
        ∃ p, deref w2 a = .ok p) := by
  have hwf := WF_of_reachable hr
  have key : ∀ (w1 : World) (a bp : Nat) (base : CoglPipeline),
      w1.instances[w.instances.length]? = some (fresh_instance klass (some a)) →
      deref w1 a = .ok (cogl_pipeline_set_layer_null_texture base 0) →
      (∃ w2, shell_glsl_quad_paint w1 w.instances.length = .ok w2) ∧
      (∀ name, ∃ r, shell_glsl_quad_get_uniform_location lookup w1 w.instances.length name
        = .ok r) ∧
      (∀ (us : List (Nat × Use)) (w2 : World), use_many lookup us w1 = .ok w2 →
        w2.instances[w.instances.length]? = some (fresh_instance klass (some a)) ∧
        ∃ p, deref w2 a = .ok p) := by
    intro w1 a bp base hi hp
    refine ⟨⟨_, paint_ok hi rfl hp⟩, ?_, ?_⟩
    · intro name
      refine ⟨(w1, lookup (cogl_pipeline_set_layer_null_texture base 0) name), ?_⟩
      unfold shell_glsl_quad_get_uniform_location
      rw [get_instance_ok.mpr hi]
      simp only [fresh_instance, hp]
    · intro us w2 h
      obtain ⟨_, h2, h3⟩ := use_many_frame us h
      exact ⟨by rw [h2]; exact hi, deref_of_live (h3 a (live_of_deref hp))⟩
  cases hb : k.base_pipeline with
  | some bp0 =>
    obtain ⟨base, hbase⟩ := deref_of_live (hwf.class_live klass k bp0 hk hb)
    have hlt := live_lt (live_of_deref hbase)
    have hi : (⟨w.heap ++ [⟨1, cogl_pipeline_set_layer_null_texture base 0⟩], w.classes,
        w.instances ++ [fresh_instance klass (some w.heap.length)], w.log⟩ :
        World).instances[w.instances.length]? =
        some (fresh_instance klass (some w.heap.length)) := List.getElem?_concat_length _ _
    have hp : deref (⟨w.heap ++ [⟨1, cogl_pipeline_set_layer_null_texture base 0⟩], w.classes,
        w.instances ++ [fresh_instance klass (some w.heap.length)], w.log⟩ : World)
        w.heap.length = .ok (cogl_pipeline_set_layer_null_texture base 0) :=
      deref_eq_ok.mpr ⟨_, List.getElem?_concat_length _ _, by simp, rfl⟩
    refine ⟨_, w.heap.length, bp0, base, g_object_new_cached hk hb hbase, hi, ?_, ?_, hp, ?_, ?_,
      key _ _ bp0 base hi hp⟩
    · rw [← hb]; exact hk
    · obtain ⟨o, h1, h2, h3⟩ := deref_eq_ok.mp hbase
      exact deref_eq_ok.mpr ⟨o, by
        show (w.heap ++ _)[bp0]? = some o
        rw [List.getElem?_append_left hlt]; exact h1, h2, h3⟩
    · intro h; cases h
    · intro bp1 h
      cases h
      exact ⟨rfl, hbase⟩
  | none =>
    have hi : (⟨w.heap ++ [⟨1, apply_calls H (k.build_pipeline.getD []) blank_base⟩,
          ⟨1, cogl_pipeline_set_layer_null_texture
            (apply_calls H (k.build_pipeline.getD []) blank_base) 0⟩],
        w.classes.set klass ⟨some w.heap.length, k.build_pipeline⟩,
        w.instances ++ [fresh_instance klass (some (w.heap.length + 1))],
        w.log ++ (match k.build_pipeline with
          | some _ => [Event.build_pipeline klass w.instances.length]
          | none => [])⟩ : World).instances[w.instances.length]? =
        some (fresh_instance klass (some (w.heap.length + 1))) :=
      List.getElem?_concat_length _ _
    have hp : deref (⟨w.heap ++ [⟨1, apply_calls H (k.build_pipeline.getD []) blank_base⟩,
          ⟨1, cogl_pipeline_set_layer_null_texture
            (apply_calls H (k.build_pipeline.getD []) blank_base) 0⟩],
        w.classes.set klass ⟨some w.heap.length, k.build_pipeline⟩,
        w.instances ++ [fresh_instance klass (some (w.heap.length + 1))],
        w.log ++ (match k.build_pipeline with
          | some _ => [Event.build_pipeline klass w.instances.length]
          | none => [])⟩ : World) (w.heap.length + 1) =
        .ok (cogl_pipeline_set_layer_null_texture
          (apply_calls H (k.build_pipeline.getD []) blank_base) 0) :=
      deref_eq_ok.mpr ⟨_, getElem?_append_two_snd _ _ _, by simp, rfl⟩
    refine ⟨_, w.heap.length + 1, w.heap.length, apply_calls H (k.build_pipeline.getD [])
      blank_base, g_object_new_build hk hb, hi, ?_, ?_, hp, fun _ => rfl, ?_,
      key _ _ w.heap.length _ hi hp⟩
    · exact List.getElem?_set_self (getElem?_lt_of_some hk)
    · exact deref_eq_ok.mpr ⟨_, getElem?_append_two_fst _ _ _, by simp, rfl⟩
    · intro bp1 h; cases h

/-- C8 at a concrete input: a third instance of the sample subtype, built
from the cached template. -/
theorem constructed_instance_pipeline_witness :
    ∃ w1 a bp base,
      g_object_new demo_hooks demo_world 0 = .ok w1 ∧
      w1.instances[demo_world.instances.length]? = some (fresh_instance 0 (some a)) ∧
      w1.classes[0]? = some ⟨some bp, some demo_body⟩ ∧
      deref w1 bp = .ok base ∧
      deref w1 a = .ok (cogl_pipeline_set_layer_null_texture base 0) ∧
      bp = 0 ∧ deref demo_world 0 = .ok base := by
  obtain ⟨w1, a, bp, base, h1, h2, h3, h4, h5, _, h7, _⟩ :=
    constructed_instance_pipeline demo_hooks (fun _ _ => 0) demo_world 0
      ⟨some 0, some demo_body⟩ demo_reachable rfl
  exact ⟨w1, a, bp, base, h1, h2, h3, h4, h5, h7 0 rfl⟩

theorem build_count_draw (klass a : Nat) (p : CoglPipeline) (x1 y1 x2 y2 : gfloat)
    (l : List Event) :
    build_count klass (l ++ [.draw_rectangle a p x1 y1 x2 y2]) = build_count klass l := by
  simp [build_count]

theorem build_count_critical (klass : Nat) (m : String) (l : List Event) :
    build_count klass (l ++ [.critical m]) = build_count klass l := by
  simp [build_count]

/-- What one call does to the class structure of `klass` and to the number
of invocations of its `build_pipeline`: a set base pipeline stays set and
then nothing is invoked; an invocation happens only while the base pipeline
is unset, and sets it. -/
theorem step_build_count {H : ShellSnippetHookValues} {w w' : World} {op : Op} {klass : Nat}
    {k : ShellGLSLQuadClass} (hwf : WF w) (h : step H w op = .ok w')
    (hk : w.classes[klass]? = some k) :
    ∃ k', w'.classes[klass]? = some k' ∧
      (k.base_pipeline ≠ none → k'.base_pipeline ≠ none ∧
        build_count klass w'.log = build_count klass w.log) ∧
      (build_count klass w'.log = build_count klass w.log ∨
        (k.base_pipeline = none ∧ k'.base_pipeline ≠ none ∧
          build_count klass w'.log = build_count klass w.log + 1)) := by
  have same : w'.classes = w.classes → build_count klass w'.log = build_count klass w.log →
      ∃ k', w'.classes[klass]? = some k' ∧
      (k.base_pipeline ≠ none → k'.base_pipeline ≠ none ∧
        build_count klass w'.log = build_count klass w.log) ∧
      (build_count klass w'.log = build_count klass w.log ∨
        (k.base_pipeline = none ∧ k'.base_pipeline ≠ none ∧
          build_count klass w'.log = build_count klass w.log + 1)) := by
    intro hc hl
    exact ⟨k, by rw [hc]; exact hk, fun hb => ⟨hb, hl⟩, Or.inl hl⟩
  cases op with
  | class_init parent bp =>
    have hlt := getElem?_lt_of_some hk
    simp only [step, class_init] at h
    cases parent with
    | none =>
      simp only [Except.ok.injEq] at h
      subst h
      exact ⟨k, by simp only; rw [List.getElem?_append_left hlt]; exact hk,
        fun hb => ⟨hb, rfl⟩, Or.inl rfl⟩
    | some c =>
      simp only at h
      cases hc : w.classes[c]? with
      | none => rw [hc] at h; cases h
      | some kc =>
        rw [hc] at h
        simp only [Except.ok.injEq] at h
        subst h
        exact ⟨k, by simp only; rw [List.getElem?_append_left hlt]; exact hk,
          fun hb => ⟨hb, rfl⟩, Or.inl rfl⟩
  | g_object_new c =>
    have h' : g_object_new H w c = .ok w' := h
    have hlt : c < w.classes.length := by
      unfold g_object_new at h'
      by_contra hc
      rw [if_neg hc] at h'
      cases h'
    have hkc : w.classes[c]? = some w.classes[c] := List.getElem?_eq_getElem hlt
    cases hb : (w.classes[c]).base_pipeline with
    | some bp =>
      obtain ⟨base, hbase⟩ := deref_of_live (hwf.class_live c _ bp hkc hb)
      rw [g_object_new_cached hkc hb hbase] at h'
      have e := (Except.ok.inj h').symm
      subst e
      exact same rfl rfl
    | none =>
      rw [g_object_new_build hkc hb] at h'
      have e := (Except.ok.inj h').symm
      subst e
      by_cases hck : c = klass
      · subst hck
        rw [hkc] at hk
        have ek : w.classes[c] = k := Option.some.inj hk
        refine ⟨_, List.getElem?_set_self hlt, ?_, ?_⟩
        · intro hne
          rw [← ek] at hne
          exact absurd hb hne
        · cases hbp : (w.classes[c]).build_pipeline with
          | none =>
            left
            simp only [build_count_append]
            simp [build_count]
          | some body =>
            right
            refine ⟨by rw [← ek]; exact hb, by simp, ?_⟩
            simp only [build_count_append]
            simp [build_count]
      · refine ⟨k, ?_, ?_, ?_⟩
        · simp only
          rw [List.getElem?_set_ne hck]
          exact hk
        · intro hne
          refine ⟨hne, ?_⟩
          simp only [build_count_append]
          cases (w.classes[c]).build_pipeline <;> simp [build_count, hck]
        · left
          simp only [build_count_append]
          cases (w.classes[c]).build_pipeline <;> simp [build_count, hck]
  | host_update actor opacity box =>
    simp only [step, host_update] at h
    cases hi : get_instance w actor with
    | error f => rw [hi] at h; cases h
    | ok self =>
      rw [hi] at h
      simp only [Except.ok.injEq] at h
      subst h
      exact same rfl rfl
  | paint actor =>
    have h' : shell_glsl_quad_paint w actor = .ok w' := h
    obtain ⟨self, a, p, hi, ha, hp⟩ := paint_inv h'
    rw [paint_ok hi ha hp] at h'
    have e := (Except.ok.inj h').symm
    subst e
    refine same (by simp) ?_
    rw [emit_log, store_log, build_count_draw]
  | add_glsl_snippet quad c =>
    obtain ⟨kq, _, h1 | ⟨bp, p, _, _, h2⟩⟩ := add_glsl_snippet_inv h
    · have e := h1.2
      subst e
      refine same rfl ?_
      rw [emit_log, build_count_critical]
    · subst h2
      exact same (by simp) (by simp)
  | set_uniform_float quad u n t v =>
    obtain ⟨self, a, p, count, p1, _, _, _, _, _, hw⟩ := set_uniform_float_inv h
    subst hw
    exact same (by simp) (by simp)
  | dispose gobject =>
    simp only [step, shell_glsl_quad_dispose] at h
    cases hi : get_instance w gobject with
    | error f => rw [hi] at h; cases h
    | ok self =>
      rw [hi] at h
      simp only at h
      cases ha : self.priv.pipeline with
      | none =>
        rw [ha] at h
        simp only [Except.ok.injEq] at h
        subst h
        exact same rfl rfl
      | some a =>
        rw [ha] at h
        simp only [cogl_object_unref] at h
        cases ho : w.heap[a]? with
        | none => rw [ho] at h; cases h
        | some o =>
          rw [ho] at h
          simp only at h
          by_cases hr : o.ref_count = 0
          · rw [if_pos hr] at h; cases h
          · rw [if_neg hr] at h
            simp only [Except.ok.injEq] at h
            subst h
            exact same rfl rfl

/-- Over any sequence of calls from a state obeying the pointer discipline,
the `build_pipeline` implementation of a class is invoked at most once, and
not at all once the class base pipeline is set. -/
theorem run_build_count {H : ShellSnippetHookValues} (klass : Nat) (ops : List Op) :
    ∀ {w w' : World} {k : ShellGLSLQuadClass}, WF w → run H ops w = .ok w' →
      w.classes[klass]? = some k →
      build_count klass w'.log ≤
        build_count klass w.log + (if k.base_pipeline = none then 1 else 0) := by
  induction ops with
  | nil =>
    intro w w' k _ h _
    rw [← Except.ok.inj h]
    omega
  | cons op ops ih =>
    intro w w' k hwf h hk
    simp only [run] at h
    cases hs : step H w op with
    | error f => rw [hs] at h; cases h
    | ok w1 =>
      rw [hs] at h
      obtain ⟨k1, hk1, h1, h2⟩ := step_build_count hwf hs hk
      have := ih (WF_step hwf hs) h hk1
      by_cases hb : k.base_pipeline = none
      · rw [if_pos hb]
        rcases h2 with h2 | ⟨_, h3, h4⟩
        · by_cases hb1 : k1.base_pipeline = none
          · rw [if_pos hb1] at this; omega
          · rw [if_neg hb1] at this; omega
        · rw [if_neg h3] at this; omega
      · rw [if_neg hb]
        obtain ⟨h3, h4⟩ := h1 hb
        rw [if_neg h3] at this
        omega

/-- Constructing instances of a class whose base pipeline is set and live
never builds: the log and the classes stay as they are. -/
theorem construct_many_cached (H : ShellSnippetHookValues) (klass bp : Nat)
    (k : ShellGLSLQuadClass) (hb : k.base_pipeline = some bp) (n : Nat) :
    ∀ w : World, w.classes[klass]? = some k → live w bp →
      ∃ w', construct_many H klass n w = .ok w' ∧ w'.log = w.log ∧
        w'.classes = w.classes ∧ w'.instances.length = w.instances.length + n := by
  induction n with
  | zero =>
    intro w _ _
    exact ⟨w, rfl, rfl, rfl, rfl⟩
  | succ m ih =>
    intro w hk hl
    obtain ⟨base, hbase⟩ := deref_of_live hl
    have hstep := g_object_new_cached (H := H) hk hb hbase
    obtain ⟨w', h1, h2, h3, h4⟩ := ih
      ⟨w.heap ++ [⟨1, cogl_pipeline_set_layer_null_texture base 0⟩], w.classes,
        w.instances ++ [fresh_instance klass (some w.heap.length)], w.log⟩ hk
      (live_append rfl hl)
    refine ⟨w', ?_, h2, h3, ?_⟩
    · simp only [construct_many]
      rw [hstep]
      exact h1
    · rw [h4]
      simp only [List.length_append, List.length_singleton]
      omega

/-- C1: starting from a class whose base pipeline is unset, constructing
`n` instances one after the other succeeds, and over the whole sequence the
`build_pipeline` implementation of the class is invoked once if the class
supplies one and `n > 0`, and never otherwise.  The invocation happens in
the first construction, which sets the class base pipeline; the remaining
`n - 1` constructions find it set, add nothing to the log and leave the
classes unchanged. -/
theorem build_pipeline_once (H : ShellSnippetHookValues) (w : World) (klass : Nat)
    (k : ShellGLSLQuadClass) (n : Nat) (hk : w.classes[klass]? = some k)
    (hb : k.base_pipeline = none) :
    ∃ w', construct_many H klass n w = .ok w' ∧
      build_count klass w'.log =
        build_count klass w.log + (if k.build_pipeline.isSome ∧ 0 < n then 1 else 0) ∧
      w'.instances.length = w.instances.length + n ∧
      (0 < n → ∃ w1, g_object_new H w klass = .ok w1 ∧
        w1.log = w.log ++ (match k.build_pipeline with
          | some _ => [Event.build_pipeline klass w.instances.length]
          | none => []) ∧
        w1.classes[klass]? = some ⟨some w.heap.length, k.build_pipeline⟩ ∧
        construct_many H klass (n - 1) w1 = .ok w' ∧
        w'.log = w1.log ∧ w'.classes = w1.classes) := by
  cases n with
  | zero =>
    refine ⟨w, rfl, ?_, rfl, ?_⟩
    · simp
    · intro h; exact absurd h (Nat.lt_irrefl 0)
  | succ m =>
    have hstep := g_object_new_build (H := H) hk hb
    have hlt := getElem?_lt_of_some hk
    have hk1 : (⟨w.heap ++ [⟨1, apply_calls H (k.build_pipeline.getD []) blank_base⟩,
          ⟨1, cogl_pipeline_set_layer_null_texture
            (apply_calls H (k.build_pipeline.getD []) blank_base) 0⟩],
        w.classes.set klass ⟨some w.heap.length, k.build_pipeline⟩,
        w.instances ++ [fresh_instance klass (some (w.heap.length + 1))],
        w.log ++ (match k.build_pipeline with
          | some _ => [Event.build_pipeline klass w.instances.length]
          | none => [])⟩ : World).classes[klass]? =
        some ⟨some w.heap.length, k.build_pipeline⟩ := List.getElem?_set_self hlt
    obtain ⟨w', h1, h2, h3, h4⟩ := construct_many_cached H klass w.heap.length
      ⟨some w.heap.length, k.build_pipeline⟩ rfl m _ hk1
      ⟨_, getElem?_append_two_fst _ _ _, by simp⟩
    refine ⟨w', ?_, ?_, ?_, ?_⟩
    · simp only [construct_many]
      rw [hstep]
      exact h1
    · rw [h2]
      simp only [build_count_append]
      cases hbp : k.build_pipeline with
      | none => simp [build_count]
      | some body => simp [build_count]
    · rw [h4]
      simp only [List.length_append, List.length_singleton]
      omega
    · intro _
      exact ⟨_, hstep, rfl, hk1, h1, h2, h3⟩

/-- C1 at a concrete input: three instances of a fresh subtype with a
`build_pipeline` implementation give one invocation. -/
theorem build_pipeline_once_witness :
    ∃ w', construct_many demo_hooks 0 3 ⟨[], [⟨none, some demo_body⟩], [], []⟩ = .ok w' ∧
      build_count 0 w'.log = 1 ∧ w'.instances.length = 3 := by
  obtain ⟨w', h1, h2, h3, _⟩ := build_pipeline_once demo_hooks
    ⟨[], [⟨none, some demo_body⟩], [], []⟩ 0 ⟨none, some demo_body⟩ 3 rfl rfl
  exact ⟨w', h1, h2, h3⟩

end GLSLQuad
